import Mathlib

/-!
Verification of the multi-effect evaporator design engine
(`evaporator_app.py`).  The engine is shallowly embedded below: Python
floats are modelled by exact rationals `ℚ` (and by `ℝ` where the code
evaluates the transcendental Antoine correlation `10 ** x`), `np.interp`
becomes the recursive `interpolate`, `np.linspace` becomes the affine
`dm_concs`, Python's `round`/`int` become `pyRound`/`pyTrunc`, and
the mass-balance `for` loop with its growing lists becomes a `List.foldl`
over an explicit state record.  The single mutable error slot
(`error_flag` / `error_msg`, overwritten on each failing stage) is
modelled by an `Option MbError` that each failing stage overwrites.
-/

/-- Linear interpolation over an increasing table of `(x, y)` pairs,
mirroring `np.interp`: clamps below the first and above the last point,
and is piecewise linear in between. -/
def interpolate {α : Type} [LinearOrderedField α] (x : α) : List (α × α) → α
  | [] => 0
  | [(_, y1)] => y1
  | (x1, y1) :: (x2, y2) :: rest =>
    if x ≤ x1 then y1
    else if x ≤ x2 then y1 + (y2 - y1) * (x - x1) / (x2 - x1)
    else interpolate x ((x2, y2) :: rest)

/-- The table has strictly increasing `x` and `y` coordinates. -/
def StrictTable {α : Type} [LinearOrderedField α] : List (α × α) → Prop
  | [] => True
  | [_] => True
  | p :: q :: rest => p.1 < q.1 ∧ p.2 < q.2 ∧ StrictTable (q :: rest)

instance strictTableDecidable {α : Type} [LinearOrderedField α]
    [DecidableRel ((· < ·) : α → α → Prop)] :
    ∀ L : List (α × α), Decidable (StrictTable L)
  | [] => .isTrue trivial
  | [_] => .isTrue trivial
  | _ :: q :: rest =>
    have : Decidable (StrictTable (q :: rest)) := strictTableDecidable (q :: rest)
    inferInstanceAs (Decidable (_ ∧ _ ∧ _))

/-- The 15-point pressure/boiling-temperature table of `water_bp_temp`
(pressures in kPa, temperatures in °C). -/
def bp_tableQ : List (ℚ × ℚ) :=
  [(0.6, 0), (1.2, 10), (2.3, 20), (4.2, 30), (7.4, 40),
   (12.3, 50), (19.9, 60), (31.8, 70), (47.4, 80), (67.0, 90),
   (101.3, 100), (200, 120), (300, 134), (400, 144), (500, 151)]

/-- `water_bp_temp(pressure_kpa)`: boiling temperature of water from
absolute pressure, by interpolation over the fixed table. -/
def water_bp_temp (pressure_kpa : ℚ) : ℚ := interpolate pressure_kpa bp_tableQ

/-- The NaCl boiling-point-elevation table of `bpe_nacl`. -/
def bpe_tableQ : List (ℚ × ℚ) := [(0, 0), (1, 0.3), (5, 1.5), (10, 4), (15, 7)]

/-- `bpe_nacl(conc_pct)`: boiling point elevation from solute
concentration; `0` for nonpositive concentration, else interpolation. -/
def bpe_nacl (conc_pct : ℚ) : ℚ :=
  if conc_pct ≤ 0 then 0 else interpolate conc_pct bpe_tableQ

/-- `water_bp_kpa(temp_c)`: the Antoine correlation
`p_kPa = 10 ^ (A - B / (T + C)) * 0.133322` over the reals
(the exponential is transcendental, hence the `ℝ`-valued model). -/
noncomputable def water_bp_kpa (temp_c : ℝ) : ℝ :=
  (10 : ℝ) ^ (8.07131 - 1730.63 / (temp_c + 233.426)) * 0.133322

/-- The exponent `A - B / (T + C)` of the Antoine correlation, evaluated
exactly over `ℚ` (used to bound `water_bp_kpa` at rational arguments). -/
def antoineExpQ (t : ℚ) : ℚ := 8.07131 - 1730.63 / (t + 233.426)

/-- Python's `int(x)` on a float: truncation toward zero. -/
def pyTrunc (q : ℚ) : ℤ := if q < 0 then -⌊-q⌋ else ⌊q⌋

/-- Round to the nearest integer, ties to even (Python's `round`). -/
def roundHalfEven (q : ℚ) : ℤ :=
  if q - ⌊q⌋ < 1/2 then ⌊q⌋
  else if q - ⌊q⌋ > 1/2 then ⌊q⌋ + 1
  else if 2 ∣ ⌊q⌋ then ⌊q⌋ else ⌊q⌋ + 1

/-- Python's `round(x, d)` on our exact-rational model of floats. -/
def pyRound (q : ℚ) (d : ℕ) : ℚ := (roundHalfEven (q * 10 ^ d) : ℚ) / 10 ^ d

/-- The seven numeric inputs of `evaporator_calc` (the `ProcessInput` of
the specification).  The effect count is a natural number. -/
structure ProcessInput where
  n_effects : ℕ
  feed_flow_m3h : ℚ
  feed_dm_pct : ℚ
  feed_tss_pct : ℚ
  feed_temp_c : ℚ
  prod_dm_pct : ℚ
  steam_press_barg : ℚ
  deriving DecidableEq

/-- `steam_press_abs = steam_press_barg + 1` (bar absolute). -/
def steam_press_abs (inp : ProcessInput) : ℚ := inp.steam_press_barg + 1

/-- `steam_press_kpa = steam_press_abs * 100`. -/
def steam_press_kpa (inp : ProcessInput) : ℚ := steam_press_abs inp * 100

/-- `steam_temp_c = water_bp_temp(steam_press_kpa)`. -/
def steam_temp_c (inp : ProcessInput) : ℚ := water_bp_temp (steam_press_kpa inp)

/-- `feed_flow_kgph = feed_flow_m3h * 1000` (density 1.0 kg/L). -/
def feed_flow_kgph (inp : ProcessInput) : ℚ := inp.feed_flow_m3h * 1000

/-- `feed_dm_kgph = feed_dm_pct/100 * feed_flow_kgph`. -/
def feed_dm_kgph (inp : ProcessInput) : ℚ := inp.feed_dm_pct / 100 * feed_flow_kgph inp

/-- `feed_tss_kgph = feed_tss_pct/100 * feed_flow_kgph`. -/
def feed_tss_kgph (inp : ProcessInput) : ℚ := inp.feed_tss_pct / 100 * feed_flow_kgph inp

/-- `feed_tds_kgph = feed_dm_kgph - feed_tss_kgph`. -/
def feed_tds_kgph (inp : ProcessInput) : ℚ := feed_dm_kgph inp - feed_tss_kgph inp

/-- `prod_flow_kgph = feed_dm_kgph / (prod_dm_pct/100) if prod_dm_pct > 0 else 0`. -/
def prod_flow_kgph (inp : ProcessInput) : ℚ :=
  if 0 < inp.prod_dm_pct then feed_dm_kgph inp / (inp.prod_dm_pct / 100) else 0

/-- `evap_kgph = feed_flow_kgph - prod_flow_kgph`. -/
def evap_kgph (inp : ProcessInput) : ℚ := feed_flow_kgph inp - prod_flow_kgph inp

/-- `prod_flow_m3h = prod_flow_kgph / 1000`. -/
def prod_flow_m3h (inp : ProcessInput) : ℚ := prod_flow_kgph inp / 1000

/-- `dm_concs = np.linspace(feed_dm_pct, prod_dm_pct, n_effects+1)`:
entry `i` (for `0 ≤ i ≤ n_effects`) of the evenly spaced dry-matter
trajectory.  (For `n_effects = 0` the single entry is the feed value,
which the formula also yields since `0 / 0 = 0` in `ℚ`.) -/
def dm_concs (inp : ProcessInput) (i : ℕ) : ℚ :=
  inp.feed_dm_pct + (inp.prod_dm_pct - inp.feed_dm_pct) * i / inp.n_effects

/-- `bpes[i] = bpe_nacl(max(0.01, dm_concs[i+1] - feed_tss_pct))` for
`i = 0 .. n_effects-1` (the code's list comprehension over `range(1, n+1)`). -/
def bpes (inp : ProcessInput) (i : ℕ) : ℚ :=
  bpe_nacl (max 0.01 (dm_concs inp (i + 1) - inp.feed_tss_pct))

/-- The per-effect temperature step `dt` used by the backward cascade:
`(steam_temp_c - (water_bp_temp(25) + bpes[-1])) / n_effects`. -/
def dt (inp : ProcessInput) : ℚ :=
  (steam_temp_c inp - (water_bp_temp 25 + bpes inp (inp.n_effects - 1))) / inp.n_effects

/-- The backward cascade walk, indexed by distance from the last effect:
`bp_temp_aux 0` is the last effect's boiling temperature
`water_bp_temp(25) + bpes[-1]`, and each step toward the first effect
adds `dt`. -/
def bp_temp_aux (inp : ProcessInput) : ℕ → ℚ
  | 0 => water_bp_temp 25 + bpes inp (inp.n_effects - 1)
  | k + 1 => bp_temp_aux inp k + dt inp

/-- `bp_temp_c[i]`: boiling temperature of effect `i` (0-based), filled
backward from the last effect (`i = n_effects - 1`). -/
def bp_temp_c (inp : ProcessInput) (i : ℕ) : ℚ :=
  bp_temp_aux inp (inp.n_effects - 1 - i)

/-- `eff_press_kpa[i]`: 25 kPa for the last effect, otherwise
`water_bp_kpa(bp_temp_c[i] - bpes[i])` (real-valued via Antoine). -/
noncomputable def eff_press_kpa (inp : ProcessInput) (i : ℕ) : ℝ :=
  if i = inp.n_effects - 1 then 25
  else water_bp_kpa ((bp_temp_c inp i : ℝ) - (bpes inp i : ℝ))

/-- `lmtds[i]`: driving temperature difference of effect `i`, floored at
0.1 and rounded to one decimal (as appended to the code's `lmtds` list). -/
def lmtds (inp : ProcessInput) (i : ℕ) : ℚ :=
  let hot := if i = 0 then steam_temp_c inp else bp_temp_c inp (i - 1)
  let dT1 := hot - bp_temp_c inp i
  pyRound (if dT1 ≤ 0.1 then 0.1 else dT1) 1

/-- The two mass-balance error messages; `dmNonpositive i` stands for
`"Error: Dry matter in effect i is zero or negative."` and `zeroDm i`
for `"Error: Zero dry matter in effect i."` (1-based effect index). -/
inductive MbError where
  | dmNonpositive (effect : ℕ)
  | zeroDm (effect : ℕ)
  deriving DecidableEq

/-- The (1-based) effect index named by a mass-balance error message. -/
def MbError.effectIdx : MbError → ℕ
  | .dmNonpositive i => i
  | .zeroDm i => i

/-- State of the mass-balance loop: the lists `stage_conc_flow`,
`stage_dm`, `stage_vap_kgph` and the error slot (`error_flag` is
`err.isSome`; overwriting `error_msg` is overwriting `err`). -/
structure MbState where
  conc : List ℚ
  dm : List ℚ
  vap : List ℚ
  err : Option MbError
  deriving DecidableEq

/-- Initial mass-balance state: `stage_conc_flow = [feed_flow_kgph]`,
`stage_dm = [feed_dm_kgph]`, no vapour entries, no error. -/
def mbInit (inp : ProcessInput) : MbState :=
  { conc := [feed_flow_kgph inp], dm := [feed_dm_kgph inp], vap := [], err := none }

/-- One iteration of the mass-balance loop body for stage `i` (0-based):
reads the last concentrate entry (`prev_conc_kgph = s.conc.getLastD 0`)
and last dry-matter entry (`prev_dm_kgph = s.dm.getLastD 0`), checks the
two error conditions against `this_dm_pct = dm_concs (i+1) / 100`, and
appends the new stage values (the code's locals are inlined here). -/
def mb_step (inp : ProcessInput) (s : MbState) (i : ℕ) : MbState :=
  if dm_concs inp (i + 1) / 100 ≤ 0 then
    { conc := s.conc ++ [0], dm := s.dm ++ [s.dm.getLastD 0], vap := s.vap ++ [0],
      err := some (.dmNonpositive (i + 1)) }
  else if s.dm.getLastD 0 = 0 then
    { conc := s.conc ++ [0], dm := s.dm ++ [s.dm.getLastD 0], vap := s.vap ++ [0],
      err := some (.zeroDm (i + 1)) }
  else
    { conc := s.conc ++ [s.dm.getLastD 0 / (dm_concs inp (i + 1) / 100)],
      dm := s.dm ++ [s.dm.getLastD 0],
      vap := s.vap ++ [s.conc.getLastD 0 - s.dm.getLastD 0 / (dm_concs inp (i + 1) / 100)],
      err := s.err }

/-- The first `k` iterations of the mass-balance loop. -/
def mbRun (inp : ProcessInput) (k : ℕ) : MbState :=
  (List.range k).foldl (mb_step inp) (mbInit inp)

/-- The full per-stage mass balance (`for i in range(n_effects)`). -/
def mass_balance (inp : ProcessInput) : MbState := mbRun inp inp.n_effects

/-- `steam_econ`: three-tier step function of the product dry matter. -/
def steam_econ (inp : ProcessInput) : ℚ :=
  if inp.prod_dm_pct < 12 then 2.3 else if inp.prod_dm_pct < 18 then 2.1 else 1.8

/-- `steam_needed_kgph = evap_kgph / steam_econ if steam_econ > 0 else 0`. -/
def steam_needed_kgph (inp : ProcessInput) : ℚ :=
  if 0 < steam_econ inp then evap_kgph inp / steam_econ inp else 0

/-- `total_thermal_kW = evap_kgph * 2300 / 3600`. -/
def total_thermal_kW (inp : ProcessInput) : ℚ := evap_kgph inp * 2300 / 3600

/-- `steam_power_kW = steam_needed_kgph * 2300 / 3600`. -/
def steam_power_kW (inp : ProcessInput) : ℚ := steam_needed_kgph inp * 2300 / 3600

/-- `condenser_kW = evap_kgph * 2350 / 3600`. -/
def condenser_kW (inp : ProcessInput) : ℚ := evap_kgph inp * 2350 / 3600

/-- One row of the effect-wise summary, as assembled into `results`
(the absolute-pressure column is real-valued via Antoine and is modelled
separately by `eff_press_kpa`, keeping this record computable). -/
structure EffectRecord where
  effect : ℕ
  boiling_pt : ℚ
  bpe : ℚ
  lmtd : ℚ
  vap_kgph : ℤ
  vap_m3h : ℚ
  conc_kgph : ℤ
  conc_m3h : ℚ
  deriving DecidableEq, Inhabited

/-- The structured output dictionary of `evaporator_calc` (the
`ProcessReport`): feed/product summary, energy figures, the per-effect
records and the error slot (`none` models the empty error string). -/
structure Output where
  feed_flow_m3h : ℚ
  feed_dm_pct : ℚ
  feed_tss_pct : ℚ
  feed_tds_pct : ℚ
  prod_flow_m3h : ℚ
  prod_dm_pct : ℚ
  water_evap_kgph : ℤ
  steam_needed : ℤ
  steam_power : ℤ
  steam_economy : ℚ
  effects : List EffectRecord
  total_thermal : ℤ
  steam_temp : ℚ
  condenser_load : ℤ
  error : Option MbError
  deriving DecidableEq

/-- `evaporator_calc`: the full calculation, assembling the report from
the cascade, the mass balance and the energy estimates, with the code's
per-field rounding. -/
def evaporator_calc (inp : ProcessInput) : Output :=
  let mb := mass_balance inp
  { feed_flow_m3h := inp.feed_flow_m3h
    feed_dm_pct := inp.feed_dm_pct
    feed_tss_pct := inp.feed_tss_pct
    feed_tds_pct := if 0 < feed_flow_kgph inp then
        pyRound (feed_tds_kgph inp / feed_flow_kgph inp * 100) 2 else 0
    prod_flow_m3h := pyRound (prod_flow_m3h inp) 2
    prod_dm_pct := inp.prod_dm_pct
    water_evap_kgph := pyTrunc (evap_kgph inp)
    steam_needed := pyTrunc (steam_needed_kgph inp)
    steam_power := pyTrunc (steam_power_kW inp)
    steam_economy := pyRound (steam_econ inp) 2
    effects := (List.range inp.n_effects).map fun i =>
      { effect := i + 1
        boiling_pt := pyRound (bp_temp_c inp i) 1
        bpe := pyRound (bpes inp i) 2
        lmtd := lmtds inp i
        vap_kgph := pyTrunc (mb.vap.getD i 0)
        vap_m3h := pyRound (mb.vap.getD i 0 / 1000) 2
        conc_kgph := pyTrunc (mb.conc.getD (i + 1) 0)
        conc_m3h := pyRound (mb.conc.getD (i + 1) 0 / 1000) 2 }
    total_thermal := pyTrunc (total_thermal_kW inp)
    steam_temp := pyRound (steam_temp_c inp) 1
    condenser_load := pyTrunc (condenser_kW inp)
    error := mb.err }

/-! ### Closed forms for the mass-balance loop

The loop state is fully determined stage by stage: the dry-matter list
only ever appends its own last entry, so every entry equals the feed
dry-matter mass, and each stage's branch condition is therefore static.
-/

/-- Stage `i` (0-based) takes one of the two error branches: its target
dry-matter fraction is nonpositive, or the carried dry-matter mass (which
is always the feed dry-matter mass) is zero. -/
def stage_fails (inp : ProcessInput) (i : ℕ) : Prop :=
  dm_concs inp (i + 1) / 100 ≤ 0 ∨ feed_dm_kgph inp = 0

instance (inp : ProcessInput) (i : ℕ) : Decidable (stage_fails inp i) := by
  unfold stage_fails; infer_instance

/-- Entry `j` of `stage_conc_flow` after at least `j` loop iterations. -/
def concVal (inp : ProcessInput) : ℕ → ℚ
  | 0 => feed_flow_kgph inp
  | i + 1 =>
    if dm_concs inp (i + 1) / 100 ≤ 0 ∨ feed_dm_kgph inp = 0 then 0
    else feed_dm_kgph inp / (dm_concs inp (i + 1) / 100)

/-- Entry `i` of `stage_vap_kgph` (vapour flow of stage `i`, 0-based). -/
def vapVal (inp : ProcessInput) (i : ℕ) : ℚ :=
  if dm_concs inp (i + 1) / 100 ≤ 0 ∨ feed_dm_kgph inp = 0 then 0
  else concVal inp i - feed_dm_kgph inp / (dm_concs inp (i + 1) / 100)

/-- The error message stage `i` (0-based) would set, were it to fail. -/
def errAt (inp : ProcessInput) (i : ℕ) : MbError :=
  if dm_concs inp (i + 1) / 100 ≤ 0 then .dmNonpositive (i + 1) else .zeroDm (i + 1)

/-- The error slot after `k` iterations: the message of the last failing
stage among the first `k`, if any (each failing stage overwrites it). -/
def errUpTo (inp : ProcessInput) : ℕ → Option MbError
  | 0 => none
  | k + 1 =>
    if dm_concs inp (k + 1) / 100 ≤ 0 ∨ feed_dm_kgph inp = 0
    then some (errAt inp k) else errUpTo inp k

theorem getLastD_append_singleton {α : Type} (l : List α) (a d : α) :
    (l ++ [a]).getLastD d = a := by
  cases l with
  | nil => rfl
  | cons x xs => rw [List.getLastD_eq_getLast?, List.getLast?_append_cons]; rfl

/-- Closed form of the mass-balance loop after `k` iterations. -/
theorem mbRun_eq (inp : ProcessInput) (k : ℕ) :
    mbRun inp k = { conc := (List.range (k + 1)).map (concVal inp),
                    dm := List.replicate (k + 1) (feed_dm_kgph inp),
                    vap := (List.range k).map (vapVal inp),
                    err := errUpTo inp k } := by
  induction k with
  | zero => simp [mbRun, mbInit, concVal, errUpTo, List.range_succ]
  | succ k ih =>
    have hstep : mbRun inp (k + 1) = mb_step inp (mbRun inp k) k := by
      unfold mbRun
      rw [List.range_succ, List.foldl_append, List.foldl_cons, List.foldl_nil]
    rw [hstep, ih]
    have hconc : ((List.range (k + 1)).map (concVal inp)).getLastD 0 = concVal inp k := by
      rw [List.range_succ, List.map_append, List.map_singleton, getLastD_append_singleton]
    have hdm : (List.replicate (k + 1) (feed_dm_kgph inp)).getLastD 0 = feed_dm_kgph inp := by
      rw [List.replicate_succ', getLastD_append_singleton]
    simp only [mb_step, hconc, hdm]
    by_cases h1 : dm_concs inp (k + 1) / 100 ≤ 0
    · rw [if_pos h1]
      refine MbState.mk.injEq .. ▸ ⟨?_, ?_, ?_, ?_⟩ <;>
        simp [List.range_succ, List.replicate_succ', concVal, vapVal, errUpTo, errAt, h1]
    · rw [if_neg h1]
      by_cases h2 : feed_dm_kgph inp = 0
      · rw [if_pos h2]
        refine MbState.mk.injEq .. ▸ ⟨?_, ?_, ?_, ?_⟩ <;>
          simp [List.range_succ, List.replicate_succ', concVal, vapVal, errUpTo, errAt, h1, h2]
      · rw [if_neg h2]
        refine MbState.mk.injEq .. ▸ ⟨?_, ?_, ?_, ?_⟩ <;>
          simp [List.range_succ, List.replicate_succ', concVal, vapVal, errUpTo, errAt, h1, h2]

theorem mass_balance_conc (inp : ProcessInput) :
    (mass_balance inp).conc = (List.range (inp.n_effects + 1)).map (concVal inp) := by
  unfold mass_balance; rw [mbRun_eq]

theorem mass_balance_dm (inp : ProcessInput) :
    (mass_balance inp).dm = List.replicate (inp.n_effects + 1) (feed_dm_kgph inp) := by
  unfold mass_balance; rw [mbRun_eq]

theorem mass_balance_vap (inp : ProcessInput) :
    (mass_balance inp).vap = (List.range inp.n_effects).map (vapVal inp) := by
  unfold mass_balance; rw [mbRun_eq]

theorem mass_balance_err (inp : ProcessInput) :
    (mass_balance inp).err = errUpTo inp inp.n_effects := by
  unfold mass_balance; rw [mbRun_eq]

theorem getD_map_range {β : Type} (f : ℕ → β) {n i : ℕ} (d : β) (h : i < n) :
    ((List.range n).map f).getD i d = f i := by
  rw [List.getD_eq_getElem?_getD, List.getElem?_map, List.getElem?_range h]
  rfl

/-- If no stage among the first `k` fails, the error slot stays empty. -/
theorem errUpTo_eq_none (inp : ProcessInput) (k : ℕ)
    (h : ∀ i, i < k → ¬ stage_fails inp i) : errUpTo inp k = none := by
  induction k with
  | zero => rfl
  | succ k ih =>
    have hk : ¬ stage_fails inp k := h k (Nat.lt_succ_self k)
    simp only [stage_fails] at hk
    unfold errUpTo
    rw [if_neg hk]
    exact ih fun i hi => h i (Nat.lt_succ_of_lt hi)

/-- A set error message comes from the LAST failing stage among the first
`k` (every failing stage overwrites the slot). -/
theorem errUpTo_some (inp : ProcessInput) :
    ∀ k e, errUpTo inp k = some e →
      ∃ j, j < k ∧ stage_fails inp j ∧ e = errAt inp j ∧
        ∀ j', j < j' → j' < k → ¬ stage_fails inp j'
  | 0, e, h => by simp [errUpTo] at h
  | k + 1, e, h => by
    by_cases hk : stage_fails inp k
    · have hk' := hk
      simp only [stage_fails] at hk'
      unfold errUpTo at h
      rw [if_pos hk'] at h
      exact ⟨k, Nat.lt_succ_self k, hk, (Option.some_inj.mp h).symm,
        fun j' h1 h2 => absurd (Nat.lt_of_lt_of_le h1 (Nat.lt_succ_iff.mp h2)) (lt_irrefl _)⟩
    · have hk' : ¬(dm_concs inp (k + 1) / 100 ≤ 0 ∨ feed_dm_kgph inp = 0) := hk
      unfold errUpTo at h
      rw [if_neg hk'] at h
      obtain ⟨j, hj, hf, he, hno⟩ := errUpTo_some inp k e h
      refine ⟨j, Nat.lt_succ_of_lt hj, hf, he, fun j' h1 h2 => ?_⟩
      rcases Nat.lt_succ_iff_lt_or_eq.mp h2 with h' | h'
      · exact hno j' h1 h'
      · exact h' ▸ hk

/-- Both error messages name stage `i` as effect `i + 1`. -/
theorem errAt_effectIdx (inp : ProcessInput) (i : ℕ) :
    (errAt inp i).effectIdx = i + 1 := by
  unfold errAt
  split <;> rfl

/-- The report carries one effect record per effect. -/
theorem effects_length (inp : ProcessInput) :
    (evaporator_calc inp).effects.length = inp.n_effects := by
  simp [evaporator_calc]

/-- The effect record at (0-based) index `i`, in closed form. -/
theorem effects_getD (inp : ProcessInput) {i : ℕ} (h : i < inp.n_effects) :
    (evaporator_calc inp).effects.getD i default =
      { effect := i + 1
        boiling_pt := pyRound (bp_temp_c inp i) 1
        bpe := pyRound (bpes inp i) 2
        lmtd := lmtds inp i
        vap_kgph := pyTrunc (vapVal inp i)
        vap_m3h := pyRound (vapVal inp i / 1000) 2
        conc_kgph := pyTrunc (concVal inp (i + 1))
        conc_m3h := pyRound (concVal inp (i + 1) / 1000) 2 } := by
  show ((List.range inp.n_effects).map _).getD i default = _
  rw [getD_map_range _ default h, mass_balance_vap, mass_balance_conc,
    getD_map_range _ _ h, getD_map_range _ _ (by omega : i + 1 < inp.n_effects + 1)]

/-- The report's error slot is the mass-balance error slot. -/
theorem evaporator_calc_error (inp : ProcessInput) :
    (evaporator_calc inp).error = errUpTo inp inp.n_effects := by
  show (mass_balance inp).err = _
  exact mass_balance_err inp

/-- Telescoping sum over `List.range`. -/
theorem sum_map_range_sub (g : ℕ → ℚ) (n : ℕ) :
    ((List.range n).map fun i => g i - g (i + 1)).sum = g 0 - g n := by
  induction n with
  | zero => simp
  | succ n ih =>
    rw [List.range_succ, List.map_append, List.sum_append, List.map_singleton,
      List.sum_singleton, ih]
    ring

/-- With `n_effects ≥ 1`, the trajectory ends exactly at the product
dry-matter percentage (the `np.linspace` endpoint). -/
theorem dm_concs_last (inp : ProcessInput) (hn : 1 ≤ inp.n_effects) :
    dm_concs inp inp.n_effects = inp.prod_dm_pct := by
  have hne : (inp.n_effects : ℚ) ≠ 0 := by
    have : inp.n_effects ≠ 0 := by omega
    exact_mod_cast this
  unfold dm_concs
  field_simp

/-- The trajectory starts at the feed dry-matter percentage. -/
theorem dm_concs_zero (inp : ProcessInput) : dm_concs inp 0 = inp.feed_dm_pct := by
  unfold dm_concs
  push_cast
  ring

/-! ### Claims about the mass balance -/

/-- Input with feed dry matter below zero and a positive product target:
the first stage's target is exactly zero (failing), the second is
positive, and the carried dry matter is negative. -/
def inpC9 : ProcessInput := ⟨2, 1, -1, 0, 25, 1, 1⟩

unseal Rat.mul Rat.inv Rat.add Rat.sub Rat.ofScientific in
/-- C9: the mass balance never reduces the carried dry-matter mass: every
entry of the `stage_dm` list (including stages after an error) equals the
feed dry-matter mass; consequently, on the concrete input `inpC9` (feed
DM% = -1 ≤ 0, product DM% = 1 > 0) stage 1 fails with its error recorded,
yet stage 2 computes non-zero concentrate (-1000 kg/h) and vapour
(1000 kg/h) flows from the carried negative dry matter. -/
theorem c9_dm_carried_forward :
    (∀ inp : ProcessInput,
      (mass_balance inp).dm = List.replicate (inp.n_effects + 1) (feed_dm_kgph inp)) ∧
    (inpC9.feed_dm_pct ≤ 0 ∧ 0 < inpC9.prod_dm_pct ∧
      dm_concs inpC9 1 / 100 ≤ 0 ∧
      (mass_balance inpC9).err = some (.dmNonpositive 1) ∧
      (mass_balance inpC9).vap.getD 1 0 = 1000 ∧
      (mass_balance inpC9).conc.getD 2 0 = -1000) := by
  exact ⟨fun inp => mass_balance_dm inp, by decide⟩

/-- Dilution input: product dry matter (5%) strictly between zero and the
feed dry matter (10%). -/
def inpC10 : ProcessInput := ⟨2, 1, 10, 0, 25, 5, 1⟩

unseal Rat.mul Rat.inv Rat.add Rat.sub Rat.ofScientific in
/-- C10: for the dilution input `inpC10` (0 < product DM% < feed DM%) the
report carries no error while the product mass flow (2000 kg/h) exceeds
the feed mass flow (1000 kg/h), the evaporated-water figure is negative,
and the first effect's vapour flow is negative. -/
theorem c10_dilution_not_flagged :
    0 < inpC10.prod_dm_pct ∧ inpC10.prod_dm_pct < inpC10.feed_dm_pct ∧
    (evaporator_calc inpC10).error = none ∧
    feed_flow_kgph inpC10 < prod_flow_kgph inpC10 ∧
    evap_kgph inpC10 < 0 ∧
    (evaporator_calc inpC10).water_evap_kgph < 0 ∧
    ((evaporator_calc inpC10).effects.getD 0 default).vap_kgph < 0 ∧
    (mass_balance inpC10).vap.getD 0 0 < 0 := by
  decide

/-- C4: with a strictly positive dry-matter trajectory and positive feed
dry-matter mass, dry matter is conserved exactly: the final concentrate
flow times the final dry-matter fraction equals the feed dry-matter
mass. -/
theorem c4_dry_matter_conserved (inp : ProcessInput)
    (htraj : ∀ i, i ≤ inp.n_effects → 0 < dm_concs inp i)
    (hfd : 0 < feed_dm_kgph inp) :
    (mass_balance inp).conc.getLastD 0 * (dm_concs inp inp.n_effects / 100)
      = feed_dm_kgph inp := by
  rw [mass_balance_conc]
  have hlast : ((List.range (inp.n_effects + 1)).map (concVal inp)).getLastD 0
      = concVal inp inp.n_effects := by
    rw [List.range_succ, List.map_append, List.map_singleton, getLastD_append_singleton]
  rw [hlast]
  cases hn : inp.n_effects with
  | zero =>
    have h0 : dm_concs inp 0 = inp.feed_dm_pct := dm_concs_zero inp
    simp only [concVal, h0]
    unfold feed_dm_kgph
    ring
  | succ m =>
    have hpos : 0 < dm_concs inp (m + 1) := htraj (m + 1) (by omega)
    have hcond : ¬(dm_concs inp (m + 1) / 100 ≤ 0 ∨ feed_dm_kgph inp = 0) := by
      push_neg
      constructor
      · positivity
      · exact ne_of_gt hfd
    simp only [concVal, if_neg hcond]
    have hne : dm_concs inp (m + 1) / 100 ≠ 0 := by positivity
    field_simp

/-- C5: with `n_effects ≥ 1`, positive feed dry matter and a strictly
positive trajectory, the evaporated-water figure equals feed mass flow
minus product mass flow (= feed dry-matter mass over product dry-matter
fraction) and also equals the sum of the per-stage vapour flows. -/
theorem c5_evaporation_balance (inp : ProcessInput) (hn : 1 ≤ inp.n_effects)
    (htraj : ∀ i, i ≤ inp.n_effects → 0 < dm_concs inp i)
    (hfd : 0 < feed_dm_kgph inp) :
    evap_kgph inp
        = feed_flow_kgph inp - feed_dm_kgph inp / (inp.prod_dm_pct / 100) ∧
    (mass_balance inp).vap.sum = evap_kgph inp := by
  have hend := dm_concs_last inp hn
  have hprod : 0 < inp.prod_dm_pct := hend ▸ htraj inp.n_effects le_rfl
  have h1 : evap_kgph inp
      = feed_flow_kgph inp - feed_dm_kgph inp / (inp.prod_dm_pct / 100) := by
    unfold evap_kgph prod_flow_kgph
    rw [if_pos hprod]
  refine ⟨h1, ?_⟩
  rw [mass_balance_vap]
  have hmap : (List.range inp.n_effects).map (vapVal inp)
      = (List.range inp.n_effects).map fun i => concVal inp i - concVal inp (i + 1) := by
    refine List.map_congr_left fun i hi => ?_
    have hi' : i < inp.n_effects := List.mem_range.mp hi
    have hpos : 0 < dm_concs inp (i + 1) := htraj (i + 1) (by omega)
    have hcond : ¬(dm_concs inp (i + 1) / 100 ≤ 0 ∨ feed_dm_kgph inp = 0) := by
      push_neg
      exact ⟨by positivity, ne_of_gt hfd⟩
    simp only [vapVal, concVal, if_neg hcond]
  rw [hmap, sum_map_range_sub, h1]
  have hposn : 0 < dm_concs inp inp.n_effects := htraj inp.n_effects le_rfl
  have hcondn : ¬(dm_concs inp inp.n_effects / 100 ≤ 0 ∨ feed_dm_kgph inp = 0) := by
    push_neg
    exact ⟨by positivity, ne_of_gt hfd⟩
  obtain ⟨m, hm⟩ : ∃ m, inp.n_effects = m + 1 := ⟨inp.n_effects - 1, by omega⟩
  rw [hm] at hcondn ⊢
  simp only [concVal, if_neg hcondn]
  rw [← hm, hend]

/-- All-success witness input for the conservation claims:
trajectory 2% → 3% → 4%, feed dry matter 20 kg/h. -/
def inpC4w : ProcessInput := ⟨2, 1, 2, 0, 25, 4, 1⟩

unseal Rat.mul Rat.inv Rat.add Rat.sub Rat.ofScientific in
/-- Witness for `c4_dry_matter_conserved` at `inpC4w`. -/
theorem c4_witness :
    (∀ i, i ≤ inpC4w.n_effects → 0 < dm_concs inpC4w i) ∧ 0 < feed_dm_kgph inpC4w ∧
    (mass_balance inpC4w).conc.getLastD 0 * (dm_concs inpC4w inpC4w.n_effects / 100)
      = feed_dm_kgph inpC4w :=
  ⟨by decide, by decide, c4_dry_matter_conserved inpC4w (by decide) (by decide)⟩

/-- All-success witness input for the evaporation balance. -/
def inpC5w : ProcessInput := ⟨2, 1, 2, 0, 25, 4, 1⟩

unseal Rat.mul Rat.inv Rat.add Rat.sub Rat.ofScientific in
/-- Witness for `c5_evaporation_balance` at `inpC5w`. -/
theorem c5_witness :
    1 ≤ inpC5w.n_effects ∧ (∀ i, i ≤ inpC5w.n_effects → 0 < dm_concs inpC5w i) ∧
    0 < feed_dm_kgph inpC5w ∧
    (evap_kgph inpC5w
        = feed_flow_kgph inpC5w - feed_dm_kgph inpC5w / (inpC5w.prod_dm_pct / 100) ∧
      (mass_balance inpC5w).vap.sum = evap_kgph inpC5w) :=
  ⟨by decide, by decide, by decide,
    c5_evaporation_balance inpC5w (by decide) (by decide) (by decide)⟩

/-- Input for scenario B with two effects: feed DM 2%, product DM 0. -/
def inpC1x : ProcessInput := ⟨2, 1, 2, 0, 25, 0, 1⟩

unseal Rat.mul Rat.inv Rat.add Rat.sub Rat.ofScientific in
/-- C1 counterexample: with positive feed dry matter (2%), product DM = 0
and two effects, the error names effect 2 (not effect 1), and effect 1's
vapour and concentrate flows are non-zero — the claimed behaviour
("error in effect 1, zero flows from effect 1 onward") is false. -/
theorem c1_counterexample :
    0 < inpC1x.feed_dm_pct ∧ inpC1x.prod_dm_pct = 0 ∧ 0 < inpC1x.feed_flow_m3h ∧
    (evaporator_calc inpC1x).error = some (.dmNonpositive 2) ∧
    (evaporator_calc inpC1x).error ≠ some (.dmNonpositive 1) ∧
    ((evaporator_calc inpC1x).effects.getD 0 default).vap_kgph = -1000 ∧
    ((evaporator_calc inpC1x).effects.getD 0 default).conc_kgph = 2000 := by
  decide

/-- C1 amended: with positive feed flow and feed dry matter, product
DM = 0 and at least one effect, the report's error is "dry matter in
effect N is zero or negative" for the LAST effect `N = n_effects`, and
the last effect's record has zero vapour and concentrate flows (earlier
effects are computed by the normal branch and may be non-zero). -/
theorem c1_amended (inp : ProcessInput) (hn : 1 ≤ inp.n_effects)
    (hflow : 0 < inp.feed_flow_m3h) (hdm : 0 < inp.feed_dm_pct)
    (hprod : inp.prod_dm_pct = 0) :
    (evaporator_calc inp).error = some (.dmNonpositive inp.n_effects) ∧
    ((evaporator_calc inp).effects.getLastD default).vap_kgph = 0 ∧
    ((evaporator_calc inp).effects.getLastD default).vap_m3h = 0 ∧
    ((evaporator_calc inp).effects.getLastD default).conc_kgph = 0 ∧
    ((evaporator_calc inp).effects.getLastD default).conc_m3h = 0 := by
  obtain ⟨m, hm⟩ : ∃ m, inp.n_effects = m + 1 := ⟨inp.n_effects - 1, by omega⟩
  have hlastdm : dm_concs inp (m + 1) = 0 := by
    rw [← hm, dm_concs_last inp hn, hprod]
  have hfail : dm_concs inp (m + 1) / 100 ≤ 0 ∨ feed_dm_kgph inp = 0 := by
    left
    rw [hlastdm]
    norm_num
  have heff : (evaporator_calc inp).effects.getLastD default
      = (evaporator_calc inp).effects.getD m default := by
    show ((List.range inp.n_effects).map _).getLastD default
        = ((List.range inp.n_effects).map _).getD m default
    conv_lhs => rw [hm, List.range_succ]
    rw [List.map_append, List.map_singleton, getLastD_append_singleton]
    conv_rhs => rw [hm]
    rw [getD_map_range _ default (Nat.lt_succ_self m)]
  have hv : vapVal inp m = 0 := by
    unfold vapVal
    rw [if_pos hfail]
  have hc : concVal inp (m + 1) = 0 := by
    simp only [concVal]
    rw [if_pos hfail]
  refine ⟨?_, ?_, ?_, ?_, ?_⟩
  · rw [evaporator_calc_error, hm]
    unfold errUpTo
    rw [if_pos hfail]
    have hfd : feed_dm_kgph inp ≠ 0 := by
      unfold feed_dm_kgph feed_flow_kgph
      positivity
    unfold errAt
    rw [if_pos (hfail.resolve_right hfd)]
  all_goals
    rw [heff, effects_getD inp (by omega : m < inp.n_effects)]
    norm_num [hv, hc, pyTrunc, pyRound, roundHalfEven]

unseal Rat.mul Rat.inv Rat.add Rat.sub Rat.ofScientific in
/-- Witness for `c1_amended` at the concrete input `inpC1x`. -/
theorem c1_witness :
    (evaporator_calc inpC1x).error = some (.dmNonpositive 2) ∧
    ((evaporator_calc inpC1x).effects.getLastD default).vap_kgph = 0 ∧
    ((evaporator_calc inpC1x).effects.getLastD default).conc_kgph = 0 :=
  have h := c1_amended inpC1x (by decide) (by decide) (by decide) (by decide)
  ⟨h.1, h.2.1, h.2.2.2.1⟩

/-- Input whose first stage fails (target DM hits 0 midway) while the
second stage recomputes non-zero flows from the carried negative dry
matter: feed DM -1%, product DM 1%. -/
def inpC2x : ProcessInput := ⟨2, 1, -1, 0, 25, 1, 1⟩

unseal Rat.mul Rat.inv Rat.add Rat.sub Rat.ofScientific in
/-- C2 counterexample: on `inpC2x` a mass-balance error is reported for
effect 1, yet the SUBSEQUENT stage's record carries non-zero vapour
(1000 kg/h) and concentrate (-1000 kg/h) flows, contradicting "the
numeric fields for the failed and subsequent stages are zero". -/
theorem c2_counterexample :
    (evaporator_calc inpC2x).error = some (.dmNonpositive 1) ∧
    ((evaporator_calc inpC2x).effects.getD 1 default).vap_kgph = 1000 ∧
    ((evaporator_calc inpC2x).effects.getD 1 default).conc_kgph = -1000 := by
  decide

/-- C2 amended: `evaporator_calc` is a total function (the embedding of
"never raises"), always returns a report with exactly `n_effects` effect
records, and whenever the error slot is set, the stage the error names
has zero vapour and concentrate flows (later stages may be non-zero). -/
theorem c2_amended (inp : ProcessInput) :
    (evaporator_calc inp).effects.length = inp.n_effects ∧
    ∀ e, (evaporator_calc inp).error = some e →
      1 ≤ e.effectIdx ∧ e.effectIdx ≤ inp.n_effects ∧
      ((evaporator_calc inp).effects.getD (e.effectIdx - 1) default).vap_kgph = 0 ∧
      ((evaporator_calc inp).effects.getD (e.effectIdx - 1) default).vap_m3h = 0 ∧
      ((evaporator_calc inp).effects.getD (e.effectIdx - 1) default).conc_kgph = 0 ∧
      ((evaporator_calc inp).effects.getD (e.effectIdx - 1) default).conc_m3h = 0 := by
  refine ⟨effects_length inp, fun e he => ?_⟩
  rw [evaporator_calc_error] at he
  obtain ⟨j, hj, hfail, heq, -⟩ := errUpTo_some inp inp.n_effects e he
  have hfail' : dm_concs inp (j + 1) / 100 ≤ 0 ∨ feed_dm_kgph inp = 0 := hfail
  have hidx : e.effectIdx = j + 1 := by rw [heq, errAt_effectIdx]
  have hj1 : e.effectIdx - 1 = j := by omega
  have hv : vapVal inp j = 0 := by
    unfold vapVal
    rw [if_pos hfail']
  have hc : concVal inp (j + 1) = 0 := by
    simp only [concVal]
    rw [if_pos hfail']
  refine ⟨by omega, by omega, ?_, ?_, ?_, ?_⟩ <;>
    rw [hj1, effects_getD inp hj] <;>
    norm_num [hv, hc, pyTrunc, pyRound, roundHalfEven]

/-- Input whose last stage fails with positive feed dry matter. -/
def inpC2w : ProcessInput := ⟨2, 1, 2, 0, 25, 0, 1⟩

unseal Rat.mul Rat.inv Rat.add Rat.sub Rat.ofScientific in
/-- Witness for `c2_amended` at the concrete input `inpC2w`. -/
theorem c2_witness :
    (evaporator_calc inpC2w).effects.length = 2 ∧
    ((evaporator_calc inpC2w).effects.getD 1 default).vap_kgph = 0 ∧
    ((evaporator_calc inpC2w).effects.getD 1 default).conc_kgph = 0 :=
  have h := (c2_amended inpC2w).2 (.dmNonpositive 2) (by decide)
  ⟨(c2_amended inpC2w).1, h.2.2.1, h.2.2.2.2.1⟩

/-- Input on which BOTH stages fail: feed DM 2%, product DM -2%, so the
targets are 0% (effect 1) and -2% (effect 2). -/
def inpC3x : ProcessInput := ⟨2, 1, 2, 0, 25, -2, 1⟩

unseal Rat.mul Rat.inv Rat.add Rat.sub Rat.ofScientific in
/-- C3 counterexample: on `inpC3x` both stages fail, the first failing
stage in forward order is effect 1, yet the report's error field holds
the message of effect 2 — the code overwrites the error slot, keeping
the LAST failing stage's message, not the first. -/
theorem c3_counterexample :
    stage_fails inpC3x 0 ∧ stage_fails inpC3x 1 ∧
    (evaporator_calc inpC3x).error = some (.dmNonpositive 2) ∧
    (evaporator_calc inpC3x).error ≠ some (.dmNonpositive 1) := by
  decide

/-- C3 amended: whenever the report carries an error, it is the message
of the LAST failing stage in forward order (the stage it names fails and
no later stage fails), and every failing stage's record has zero vapour
and concentrate flows. -/
theorem c3_amended (inp : ProcessInput) :
    ∀ e, (evaporator_calc inp).error = some e →
      stage_fails inp (e.effectIdx - 1) ∧ e = errAt inp (e.effectIdx - 1) ∧
      (∀ j, e.effectIdx ≤ j → j < inp.n_effects → ¬ stage_fails inp j) ∧
      (∀ j, j < inp.n_effects → stage_fails inp j →
        ((evaporator_calc inp).effects.getD j default).vap_kgph = 0 ∧
        ((evaporator_calc inp).effects.getD j default).vap_m3h = 0 ∧
        ((evaporator_calc inp).effects.getD j default).conc_kgph = 0 ∧
        ((evaporator_calc inp).effects.getD j default).conc_m3h = 0) := by
  intro e he
  rw [evaporator_calc_error] at he
  obtain ⟨j, hj, hfail, heq, hno⟩ := errUpTo_some inp inp.n_effects e he
  have hidx : e.effectIdx = j + 1 := by rw [heq, errAt_effectIdx]
  have hj1 : e.effectIdx - 1 = j := by omega
  refine ⟨hj1 ▸ hfail, by rw [hj1, heq], fun j' h1 h2 => hno j' (by omega) h2, ?_⟩
  intro j2 hj2 hfail2
  have hfail2' : dm_concs inp (j2 + 1) / 100 ≤ 0 ∨ feed_dm_kgph inp = 0 := hfail2
  have hv : vapVal inp j2 = 0 := by
    unfold vapVal
    rw [if_pos hfail2']
  have hc : concVal inp (j2 + 1) = 0 := by
    simp only [concVal]
    rw [if_pos hfail2']
  refine ⟨?_, ?_, ?_, ?_⟩ <;>
    rw [effects_getD inp hj2] <;>
    norm_num [hv, hc, pyTrunc, pyRound, roundHalfEven]

/-- Input with both stages failing, used to witness `c3_amended`. -/
def inpC3w : ProcessInput := ⟨2, 1, 2, 0, 25, -2, 1⟩

unseal Rat.mul Rat.inv Rat.add Rat.sub Rat.ofScientific in
/-- Witness for `c3_amended` at the concrete input `inpC3w`. -/
theorem c3_witness :
    stage_fails inpC3w 1 ∧ MbError.dmNonpositive 2 = errAt inpC3w 1 ∧
    ((evaporator_calc inpC3w).effects.getD 0 default).vap_kgph = 0 :=
  have h := c3_amended inpC3w (.dmNonpositive 2) (by decide)
  ⟨h.1, h.2.1, (h.2.2.2 0 (by decide) (by decide)).1⟩

/-! ### The cascade solver (C8) -/

/-- Closed form of the backward cascade walk. -/
theorem bp_temp_aux_closed (inp : ProcessInput) (k : ℕ) :
    bp_temp_aux inp k
      = water_bp_temp 25 + bpes inp (inp.n_effects - 1) + k * dt inp := by
  induction k with
  | zero => simp [bp_temp_aux]
  | succ k ih =>
    show bp_temp_aux inp k + dt inp = _
    rw [ih]
    push_cast
    ring

/-- C8: for `n_effects ≥ 1` the cascade fixes the last effect's absolute
pressure at exactly 25 kPa and its boiling temperature at
`water_bp_temp(25) + BPE_of_last_effect`; each earlier effect's boiling
temperature is the next effect's plus the uniform step `dt`, and its
pressure is `water_bp_kpa(boilingTemp - BPE_of_this_effect)`. -/
theorem c8_cascade_structure (inp : ProcessInput) (hn : 1 ≤ inp.n_effects) :
    eff_press_kpa inp (inp.n_effects - 1) = 25 ∧
    bp_temp_c inp (inp.n_effects - 1)
      = water_bp_temp 25 + bpes inp (inp.n_effects - 1) ∧
    dt inp = (steam_temp_c inp
      - (water_bp_temp 25 + bpes inp (inp.n_effects - 1))) / inp.n_effects ∧
    ∀ i, i + 1 < inp.n_effects →
      bp_temp_c inp i = bp_temp_c inp (i + 1) + dt inp ∧
      eff_press_kpa inp i
        = water_bp_kpa ((bp_temp_c inp i : ℝ) - (bpes inp i : ℝ)) := by
  refine ⟨?_, ?_, rfl, ?_⟩
  · unfold eff_press_kpa
    rw [if_pos rfl]
  · unfold bp_temp_c
    have h0 : inp.n_effects - 1 - (inp.n_effects - 1) = 0 := by omega
    rw [h0]
    rfl
  · intro i hi
    constructor
    · unfold bp_temp_c
      have hk : inp.n_effects - 1 - i = (inp.n_effects - 1 - (i + 1)) + 1 := by omega
      rw [hk]
      rfl
    · unfold eff_press_kpa
      rw [if_neg (by omega : ¬ i = inp.n_effects - 1)]

/-- Concrete three-effect input for the cascade witness. -/
def inpC8w : ProcessInput := ⟨3, 1, 2, 0, 25, 10, 1⟩

/-- Witness for `c8_cascade_structure` at `inpC8w`. -/
theorem c8_witness :
    eff_press_kpa inpC8w 2 = 25 ∧
    bp_temp_c inpC8w 2 = water_bp_temp 25 + bpes inpC8w 2 ∧
    bp_temp_c inpC8w 0 = bp_temp_c inpC8w 1 + dt inpC8w ∧
    eff_press_kpa inpC8w 0
      = water_bp_kpa ((bp_temp_c inpC8w 0 : ℝ) - (bpes inpC8w 0 : ℝ)) :=
  have h := c8_cascade_structure inpC8w (by decide)
  have h0 := h.2.2.2 0 (by decide)
  ⟨h.1, h.2.1, h0.1, h0.2⟩

/-! ### Interpolation monotonicity (C6) -/

/-- `interpolate` never drops below the head ordinate of a strict table. -/
theorem interpolate_ge_head {α : Type} [LinearOrderedField α] :
    ∀ (L : List (α × α)) (x0 y0 : α), StrictTable ((x0, y0) :: L) → ∀ x : α,
      y0 ≤ interpolate x ((x0, y0) :: L)
  | [], _, _, _, _ => by simp [interpolate]
  | (x1, y1) :: L', x0, y0, h, x => by
    obtain ⟨h01, hy01, h'⟩ := h
    simp only [interpolate]
    split_ifs with h1 h2
    · exact le_refl y0
    · have hx0 : x0 < x := lt_of_not_le h1
      have hd : (0 : α) < x1 - x0 := sub_pos.mpr h01
      have hnum : (0 : α) ≤ (y1 - y0) * (x - x0) := by nlinarith
      have := div_nonneg hnum (le_of_lt hd)
      linarith
    · calc y0 ≤ y1 := le_of_lt hy01
        _ ≤ interpolate x ((x1, y1) :: L') := interpolate_ge_head L' x1 y1 h' x
/-- Below the second abscissa, `interpolate` stays below the second
ordinate of a strict table. -/
theorem interpolate_le_snd {α : Type} [LinearOrderedField α]
    (x0 y0 x1 y1 : α) (L : List (α × α))
    (h : StrictTable ((x0, y0) :: (x1, y1) :: L)) (x : α) (hx : x ≤ x1) :
    interpolate x ((x0, y0) :: (x1, y1) :: L) ≤ y1 := by
  obtain ⟨h01, hy01, -⟩ := h
  have hd : (0 : α) < x1 - x0 := sub_pos.mpr h01
  by_cases h1 : x ≤ x0
  · simp only [interpolate]
    rw [if_pos h1]
    exact le_of_lt hy01
  · simp only [interpolate]
    rw [if_neg h1, if_pos hx]
    have hstep : (y1 - y0) * (x - x0) / (x1 - x0) ≤ y1 - y0 := by
      rw [div_le_iff₀ hd]
      nlinarith
    linarith

/-- At or below the head abscissa, `interpolate` returns the head
ordinate. -/
theorem interpolate_at_head {α : Type} [LinearOrderedField α]
    (x0 y0 : α) (L : List (α × α)) (x : α) (hx : x ≤ x0) :
    interpolate x ((x0, y0) :: L) = y0 := by
  cases L with
  | nil => simp [interpolate]
  | cons q L' =>
    obtain ⟨x1, y1⟩ := q
    simp only [interpolate]
    rw [if_pos hx]

/-- `interpolate` over a strict table is monotone (with clamping at both
ends, hence non-strict in general). -/
theorem interpolate_mono {α : Type} [LinearOrderedField α] :
    ∀ (L : List (α × α)), StrictTable L → ∀ a b : α, a ≤ b →
      interpolate a L ≤ interpolate b L
  | [], _, _, _, _ => le_refl _
  | [_], _, _, _, _ => le_refl _
  | (x0, y0) :: (x1, y1) :: L', h, a, b, hab => by
    obtain ⟨h01, hy01, h'⟩ := h
    have hd : (0 : α) < x1 - x0 := sub_pos.mpr h01
    by_cases hb1 : b ≤ x1
    · have ha1 : a ≤ x1 := le_trans hab hb1
      by_cases ha0 : a ≤ x0
      · rw [interpolate_at_head x0 y0 _ a ha0]
        exact interpolate_ge_head ((x1, y1) :: L') x0 y0 ⟨h01, hy01, h'⟩ b
      · have hb0 : ¬ b ≤ x0 := fun hb0 => ha0 (le_trans hab hb0)
        simp only [interpolate]
        rw [if_neg ha0, if_pos ha1, if_neg hb0, if_pos hb1]
        have hmul : (y1 - y0) * (a - x0) ≤ (y1 - y0) * (b - x0) := by nlinarith
        have hdiv := (div_le_div_iff_of_pos_right hd).mpr hmul
        linarith
    · have hy1b : y1 ≤ interpolate b ((x0, y0) :: (x1, y1) :: L') := by
        have hb1' : x1 < b := lt_of_not_le hb1
        simp only [interpolate]
        rw [if_neg (by linarith : ¬ b ≤ x0), if_neg hb1]
        exact interpolate_ge_head L' x1 y1 h' b
      by_cases ha1 : a ≤ x1
      · exact le_trans (interpolate_le_snd x0 y0 x1 y1 L' ⟨h01, hy01, h'⟩ a ha1) hy1b
      · have ha1' : x1 < a := lt_of_not_le ha1
        have hb1' : x1 < b := lt_of_not_le hb1
        have htail := interpolate_mono ((x1, y1) :: L') h' a b hab
        simp only [interpolate]
        rw [if_neg (by linarith : ¬ a ≤ x0), if_neg ha1,
          if_neg (by linarith : ¬ b ≤ x0), if_neg hb1]
        exact htail

/-- `interpolate` over a strict table with at least two points is
STRICTLY monotone between the first and last abscissae. -/
theorem interpolate_strictMono {α : Type} [LinearOrderedField α] :
    ∀ (x0 y0 x1 y1 : α) (L : List (α × α)),
      StrictTable ((x0, y0) :: (x1, y1) :: L) → ∀ a b : α,
      x0 ≤ a → a < b → b ≤ (((x1, y1) :: L).getLastD (x1, y1)).1 →
      interpolate a ((x0, y0) :: (x1, y1) :: L)
        < interpolate b ((x0, y0) :: (x1, y1) :: L)
  | x0, y0, x1, y1, L, h, a, b, ha, hab, hb => by
    obtain ⟨h01, hy01, h'⟩ := h
    have hd : (0 : α) < x1 - x0 := sub_pos.mpr h01
    by_cases hb1 : b ≤ x1
    · -- strict within the first segment
      have hbx0 : x0 < b := lt_of_le_of_lt ha hab
      have hlerpb : interpolate b ((x0, y0) :: (x1, y1) :: L)
          = y0 + (y1 - y0) * (b - x0) / (x1 - x0) := by
        simp only [interpolate]
        rw [if_neg (not_le.mpr hbx0), if_pos hb1]
      by_cases ha0 : a ≤ x0
      · rw [interpolate_at_head x0 y0 _ a ha0, hlerpb]
        have hnum : (0 : α) < (y1 - y0) * (b - x0) := by nlinarith
        have := div_pos hnum hd
        linarith
      · have ha1 : a ≤ x1 := le_of_lt (lt_of_lt_of_le hab hb1)
        have hlerpa : interpolate a ((x0, y0) :: (x1, y1) :: L)
            = y0 + (y1 - y0) * (a - x0) / (x1 - x0) := by
          simp only [interpolate]
          rw [if_neg ha0, if_pos ha1]
        rw [hlerpa, hlerpb]
        have hmul : (y1 - y0) * (a - x0) < (y1 - y0) * (b - x0) := by nlinarith
        have hdiv := (div_lt_div_iff_of_pos_right hd).mpr hmul
        linarith
    · -- b is beyond the second point, so the tail is nonempty
      have hb1' : x1 < b := lt_of_not_le hb1
      cases L with
      | nil =>
        exact absurd hb (not_le.mpr (by simpa using hb1'))
      | cons q L'' =>
        obtain ⟨x2, y2⟩ := q
        have hbtail : interpolate b ((x0, y0) :: (x1, y1) :: (x2, y2) :: L'')
            = interpolate b ((x1, y1) :: (x2, y2) :: L'') := by
          simp only [interpolate]
          rw [if_neg (by linarith : ¬ b ≤ x0), if_neg hb1]
        have hblast : b ≤ (((x2, y2) :: L'').getLastD (x2, y2)).1 := by
          have : (((x1, y1) :: (x2, y2) :: L'').getLastD (x1, y1))
              = (((x2, y2) :: L'').getLastD (x2, y2)) := by
            rw [List.getLastD_cons, List.getLastD_cons, List.getLastD_cons]
          rwa [this] at hb
        have htailstrict := interpolate_strictMono x1 y1 x2 y2 L'' h' x1 b
          le_rfl hb1' hblast
        have hx1head : interpolate x1 ((x1, y1) :: (x2, y2) :: L'') = y1 :=
          interpolate_at_head x1 y1 _ x1 le_rfl
        by_cases ha1 : a ≤ x1
        · calc interpolate a ((x0, y0) :: (x1, y1) :: (x2, y2) :: L'')
              ≤ y1 := interpolate_le_snd x0 y0 x1 y1 _ ⟨h01, hy01, h'⟩ a ha1
            _ = interpolate x1 ((x1, y1) :: (x2, y2) :: L'') := hx1head.symm
            _ < interpolate b ((x1, y1) :: (x2, y2) :: L'') := htailstrict
            _ = interpolate b ((x0, y0) :: (x1, y1) :: (x2, y2) :: L'') := hbtail.symm
        · have ha1' : x1 < a := lt_of_not_le ha1
          have hatail : interpolate a ((x0, y0) :: (x1, y1) :: (x2, y2) :: L'')
              = interpolate a ((x1, y1) :: (x2, y2) :: L'') := by
            simp only [interpolate]
            rw [if_neg (by linarith : ¬ a ≤ x0), if_neg ha1]
          rw [hatail, hbtail]
          exact interpolate_strictMono x1 y1 x2 y2 L'' h' a b (le_of_lt ha1') hab hblast

unseal Rat.mul Rat.inv Rat.add Rat.sub Rat.ofScientific in
/-- The boiling-point table is strictly increasing in both coordinates. -/
theorem strictTable_bp : StrictTable bp_tableQ := by decide

/-- `water_bp_temp` is strictly monotone for pressures within the
table's range, 0.6 to 500 kPa. -/
theorem water_bp_temp_strict {p q : ℚ} (h1 : 0.6 ≤ p) (h2 : p < q) (h3 : q ≤ 500) :
    water_bp_temp p < water_bp_temp q :=
  interpolate_strictMono 0.6 0 1.2 10 _ strictTable_bp p q h1 h2 h3

/-- `water_bp_temp` is monotone everywhere (clamping at the ends). -/
theorem water_bp_temp_mono {p q : ℚ} (h : p ≤ q) :
    water_bp_temp p ≤ water_bp_temp q :=
  interpolate_mono bp_tableQ strictTable_bp p q h

/-- The same `ProcessInput` with only the steam pressure replaced. -/
def withSteam (inp : ProcessInput) (p : ℚ) : ProcessInput :=
  { inp with steam_press_barg := p }

/-- Two-effect counterexample inputs differing only in steam pressure:
5 and 6 bar(g) (both clamped beyond the 500 kPa table end), and 1 and
2 bar(g) (200 and 300 kPa, inside the table). -/
def inpC6base : ProcessInput := ⟨2, 1, 2, 0, 25, 10, 1⟩

unseal Rat.mul Rat.inv Rat.add Rat.sub Rat.ofScientific in
/-- C6 counterexample: at steam pressures 5 < 6 bar(g) — both inside the
product's input domain (0.5–10 bar(g)) — the steam temperatures are
EQUAL (both clamp to 151 °C beyond the 500 kPa table end), and at
1 < 2 bar(g), where the steam temperature does strictly increase
(120 < 134 °C), the LAST effect's boiling temperature is unchanged, so
"every effect's boiling temperature is strictly greater" fails too. -/
theorem c6_counterexample :
    (5 : ℚ) < 6 ∧
    steam_temp_c (withSteam inpC6base 5) = steam_temp_c (withSteam inpC6base 6) ∧
    (1 : ℚ) < 2 ∧
    steam_temp_c (withSteam inpC6base 1) < steam_temp_c (withSteam inpC6base 2) ∧
    bp_temp_c (withSteam inpC6base 1) 1 = bp_temp_c (withSteam inpC6base 2) 1 := by
  decide

/-- C6 amended: for fixed effect count and feed conditions and steam
pressures `p1 < p2` whose absolute equivalents lie within the saturation
table's range (0.6–500 kPa), the steam temperature strictly increases,
the boiling temperature of every effect EXCEPT the last strictly
increases while the last effect's is unchanged; and within one run with
positive step `dt`, boiling temperatures strictly decrease with the
effect index. -/
theorem c6_amended (inp : ProcessInput) (p1 p2 : ℚ)
    (hlo : 0.6 ≤ (p1 + 1) * 100) (hhi : (p2 + 1) * 100 ≤ 500) (h12 : p1 < p2) :
    steam_temp_c (withSteam inp p1) < steam_temp_c (withSteam inp p2) ∧
    (∀ i, i + 1 < inp.n_effects →
      bp_temp_c (withSteam inp p1) i < bp_temp_c (withSteam inp p2) i) ∧
    bp_temp_c (withSteam inp p1) (inp.n_effects - 1)
      = bp_temp_c (withSteam inp p2) (inp.n_effects - 1) ∧
    (0 < dt (withSteam inp p1) →
      ∀ i j, i < j → j < inp.n_effects →
        bp_temp_c (withSteam inp p1) j < bp_temp_c (withSteam inp p1) i) := by
  have hsteam : steam_temp_c (withSteam inp p1) < steam_temp_c (withSteam inp p2) := by
    show water_bp_temp ((p1 + 1) * 100) < water_bp_temp ((p2 + 1) * 100)
    exact water_bp_temp_strict hlo (by linarith) hhi
  refine ⟨hsteam, ?_, ?_, ?_⟩
  · intro i hi
    have hn2 : 2 ≤ inp.n_effects := by omega
    have hdt : dt (withSteam inp p1) < dt (withSteam inp p2) := by
      show (steam_temp_c (withSteam inp p1) - _) / ((inp.n_effects : ℚ))
          < (steam_temp_c (withSteam inp p2) - _) / ((inp.n_effects : ℚ))
      have hnpos : (0 : ℚ) < (inp.n_effects : ℚ) := by
        exact_mod_cast Nat.lt_of_lt_of_le Nat.zero_lt_two hn2
      exact (div_lt_div_iff_of_pos_right hnpos).mpr (by
        have hb : bpes (withSteam inp p1) ((withSteam inp p1).n_effects - 1)
            = bpes (withSteam inp p2) ((withSteam inp p2).n_effects - 1) := rfl
        linarith [hsteam])
    show bp_temp_aux (withSteam inp p1) (inp.n_effects - 1 - i)
        < bp_temp_aux (withSteam inp p2) (inp.n_effects - 1 - i)
    rw [bp_temp_aux_closed, bp_temp_aux_closed]
    have hbase : bpes (withSteam inp p1) ((withSteam inp p1).n_effects - 1)
        = bpes (withSteam inp p2) ((withSteam inp p2).n_effects - 1) := rfl
    have hk1 : 1 ≤ inp.n_effects - 1 - i := by omega
    have hkq : (1 : ℚ) ≤ ((inp.n_effects - 1 - i : ℕ) : ℚ) := by exact_mod_cast hk1
    have hkmul := mul_lt_mul_of_pos_left hdt
      (by linarith : (0 : ℚ) < ((inp.n_effects - 1 - i : ℕ) : ℚ))
    linarith [hbase, hkmul]
  · show bp_temp_aux (withSteam inp p1) ((withSteam inp p1).n_effects - 1
        - (inp.n_effects - 1)) = bp_temp_aux (withSteam inp p2)
        ((withSteam inp p2).n_effects - 1 - (inp.n_effects - 1))
    have h0 : (withSteam inp p1).n_effects - 1 - (inp.n_effects - 1) = 0 := by
      show inp.n_effects - 1 - (inp.n_effects - 1) = 0
      omega
    have h0' : (withSteam inp p2).n_effects - 1 - (inp.n_effects - 1) = 0 := by
      show inp.n_effects - 1 - (inp.n_effects - 1) = 0
      omega
    rw [h0, h0']
    rfl
  · intro hdt i j hij hjn
    show bp_temp_aux (withSteam inp p1) (inp.n_effects - 1 - j)
        < bp_temp_aux (withSteam inp p1) (inp.n_effects - 1 - i)
    rw [bp_temp_aux_closed, bp_temp_aux_closed]
    have hk : inp.n_effects - 1 - j < inp.n_effects - 1 - i := by omega
    have hkq : ((inp.n_effects - 1 - j : ℕ) : ℚ) < ((inp.n_effects - 1 - i : ℕ) : ℚ) := by
      exact_mod_cast hk
    nlinarith [mul_lt_mul_of_pos_right hkq hdt]

unseal Rat.mul Rat.inv Rat.add Rat.sub Rat.ofScientific in
/-- Witness for `c6_amended` on `inpC6base` at 1 < 2 bar(g). -/
theorem c6_witness :
    steam_temp_c (withSteam inpC6base 1) < steam_temp_c (withSteam inpC6base 2) ∧
    bp_temp_c (withSteam inpC6base 1) 0 < bp_temp_c (withSteam inpC6base 2) 0 ∧
    bp_temp_c (withSteam inpC6base 1) 1 = bp_temp_c (withSteam inpC6base 2) 1 ∧
    bp_temp_c (withSteam inpC6base 1) 1 < bp_temp_c (withSteam inpC6base 1) 0 :=
  have h := c6_amended inpC6base 1 2 (by norm_num) (by norm_num) (by norm_num)
  ⟨h.1, h.2.1 0 (by decide), h.2.2.1, h.2.2.2 (by decide) 0 1 (by decide) (by decide)⟩

/-! ### The saturation model over the reals (C7)

`water_bp_temp` composed after the (real-valued) Antoine correlation:
the table is cast to `ℝ` and the generic `interpolate` is reused, so the
`ℚ` and `ℝ` evaluations agree on rational inputs (`interpolate_cast`).
Bounds on `10 ^ q` at rational exponents are obtained by comparing
2000-th powers of rational approximations.
-/

/-- The boiling-point table cast to `ℝ`. -/
noncomputable def bp_tableR : List (ℝ × ℝ) :=
  bp_tableQ.map fun p => ((p.1 : ℝ), (p.2 : ℝ))

/-- `water_bp_temp` over the reals (same table, same interpolation). -/
noncomputable def water_bp_tempR (pressure_kpa : ℝ) : ℝ :=
  interpolate pressure_kpa bp_tableR

/-- Casting a strict table to `ℝ` keeps it strict. -/
theorem strictTable_cast :
    ∀ L : List (ℚ × ℚ), StrictTable L →
      StrictTable (L.map fun p => ((p.1 : ℝ), (p.2 : ℝ)))
  | [], _ => trivial
  | [_], _ => trivial
  | (x1, y1) :: (x2, y2) :: rest, h =>
    ⟨by
      show (x1 : ℝ) < (x2 : ℝ)
      exact_mod_cast h.1,
     by
      show (y1 : ℝ) < (y2 : ℝ)
      exact_mod_cast h.2.1,
     strictTable_cast ((x2, y2) :: rest) h.2.2⟩

theorem strictTable_bpR : StrictTable bp_tableR :=
  strictTable_cast bp_tableQ strictTable_bp

/-- Interpolation commutes with the cast `ℚ → ℝ` of the input and of the
table. -/
theorem interpolate_cast (x : ℚ) :
    ∀ L : List (ℚ × ℚ),
      interpolate (x : ℝ) (L.map fun p => ((p.1 : ℝ), (p.2 : ℝ)))
        = ((interpolate x L : ℚ) : ℝ)
  | [] => by simp [interpolate]
  | [(x1, y1)] => by simp [interpolate]
  | (x1, y1) :: (x2, y2) :: rest => by
    simp only [List.map_cons, interpolate]
    by_cases h1 : x ≤ x1
    · rw [if_pos h1, if_pos (by exact_mod_cast h1 : (x : ℝ) ≤ (x1 : ℝ))]
    · rw [if_neg h1, if_neg (by exact_mod_cast h1 : ¬ (x : ℝ) ≤ (x1 : ℝ))]
      by_cases h2 : x ≤ x2
      · rw [if_pos h2, if_pos (by exact_mod_cast h2 : (x : ℝ) ≤ (x2 : ℝ))]
        push_cast
        ring
      · rw [if_neg h2, if_neg (by exact_mod_cast h2 : ¬ (x : ℝ) ≤ (x2 : ℝ))]
        exact interpolate_cast x ((x2, y2) :: rest)

/-- Lower bound on `10 ^ (m / 2000)` by a 2000-th power comparison. -/
theorem rpow_ge_aux (m L : ℕ) (hpow : L ^ 2000 ≤ 10 ^ (m + 10000)) :
    ((L : ℝ) / 100000) ≤ (10 : ℝ) ^ ((m : ℝ) / 2000) := by
  have hx : (0 : ℝ) ≤ (10 : ℝ) ^ ((m : ℝ) / 2000) :=
    le_of_lt (Real.rpow_pos_of_pos (by norm_num) _)
  apply le_of_pow_le_pow_left₀ (n := 2000) (by norm_num) hx
  have hpoweq : ((10 : ℝ) ^ ((m : ℝ) / 2000)) ^ (2000 : ℕ) = (10 : ℝ) ^ (m : ℕ) := by
    rw [← Real.rpow_natCast ((10 : ℝ) ^ ((m : ℝ) / 2000)) 2000,
      ← Real.rpow_mul (by norm_num)]
    have hmm : (m : ℝ) / 2000 * ((2000 : ℕ) : ℝ) = ((m : ℕ) : ℝ) := by
      push_cast
      field_simp
    rw [hmm, Real.rpow_natCast]
  rw [hpoweq, div_pow]
  rw [div_le_iff₀ (by positivity)]
  have h5 : ((100000 : ℝ)) ^ (2000 : ℕ) = (10 : ℝ) ^ (10000 : ℕ) := by
    rw [show (100000 : ℝ) = 10 ^ (5 : ℕ) by norm_num, ← pow_mul]
  rw [h5, ← pow_add]
  exact_mod_cast hpow

/-- Upper bound on `10 ^ (m / 2000)` by a 2000-th power comparison. -/
theorem rpow_le_aux (m U : ℕ) (hpow : 10 ^ (m + 10000) ≤ U ^ 2000) :
    (10 : ℝ) ^ ((m : ℝ) / 2000) ≤ ((U : ℝ) / 100000) := by
  apply le_of_pow_le_pow_left₀ (n := 2000) (by norm_num) (by positivity)
  have hpowuq : ((10 : ℝ) ^ ((m : ℝ) / 2000)) ^ (2000 : ℕ) = (10 : ℝ) ^ (m : ℕ) := by
    rw [← Real.rpow_natCast ((10 : ℝ) ^ ((m : ℝ) / 2000)) 2000,
      ← Real.rpow_mul (by norm_num)]
    have hmm : (m : ℝ) / 2000 * ((2000 : ℕ) : ℝ) = ((m : ℕ) : ℝ) := by
      push_cast
      field_simp
    rw [hmm, Real.rpow_natCast]
  rw [hpowuq, div_pow]
  rw [le_div_iff₀ (by positivity)]
  have h5 : ((100000 : ℝ)) ^ (2000 : ℕ) = (10 : ℝ) ^ (10000 : ℕ) := by
    rw [show (100000 : ℝ) = 10 ^ (5 : ℕ) by norm_num, ← pow_mul]
  rw [h5, ← pow_add]
  exact_mod_cast hpow

/-- The Antoine exponent over `ℝ` at a rational argument is the cast of
its exact rational value. -/
theorem antoineExp_cast (t : ℚ) :
    8.07131 - 1730.63 / ((t : ℝ) + 233.426) = ((antoineExpQ t : ℚ) : ℝ) := by
  unfold antoineExpQ
  push_cast
  norm_num

/-- Rational lower bound on the Antoine pressure at a rational
temperature, certified by a 2000-th power comparison. -/
theorem water_bp_kpa_ge (t : ℚ) (L m : ℕ)
    (hpow : L ^ 2000 ≤ 10 ^ (m + 10000))
    (hq : (m : ℚ) ≤ antoineExpQ t * 2000) :
    (((L : ℚ) / 100000 * 0.133322 : ℚ) : ℝ) ≤ water_bp_kpa (t : ℝ) := by
  unfold water_bp_kpa
  rw [antoineExp_cast t]
  have h1 : ((L : ℝ) / 100000) ≤ (10 : ℝ) ^ ((m : ℝ) / 2000) := rpow_ge_aux m L hpow
  have h2 : (10 : ℝ) ^ ((m : ℝ) / 2000) ≤ (10 : ℝ) ^ ((antoineExpQ t : ℚ) : ℝ) := by
    apply Real.rpow_le_rpow_of_exponent_le (by norm_num)
    have hq' : (m : ℚ) / 2000 ≤ antoineExpQ t := by linarith
    calc (m : ℝ) / 2000 = (((m : ℚ) / 2000 : ℚ) : ℝ) := by push_cast; ring
      _ ≤ _ := by exact_mod_cast hq'
  calc (((L : ℚ) / 100000 * 0.133322 : ℚ) : ℝ) = ((L : ℝ) / 100000) * 0.133322 := by
        push_cast
        ring
    _ ≤ (10 : ℝ) ^ ((antoineExpQ t : ℚ) : ℝ) * 0.133322 :=
        mul_le_mul_of_nonneg_right (le_trans h1 h2) (by norm_num)

/-- Rational upper bound on the Antoine pressure at a rational
temperature, certified by a 2000-th power comparison. -/
theorem water_bp_kpa_le (t : ℚ) (U m : ℕ)
    (hpow : 10 ^ (m + 10000) ≤ U ^ 2000)
    (hq : antoineExpQ t * 2000 ≤ (m : ℚ)) :
    water_bp_kpa (t : ℝ) ≤ (((U : ℚ) / 100000 * 0.133322 : ℚ) : ℝ) := by
  unfold water_bp_kpa
  rw [antoineExp_cast t]
  have h1 : (10 : ℝ) ^ ((m : ℝ) / 2000) ≤ ((U : ℝ) / 100000) := rpow_le_aux m U hpow
  have h2 : (10 : ℝ) ^ ((antoineExpQ t : ℚ) : ℝ) ≤ (10 : ℝ) ^ ((m : ℝ) / 2000) := by
    apply Real.rpow_le_rpow_of_exponent_le (by norm_num)
    have hq' : antoineExpQ t ≤ (m : ℚ) / 2000 := by linarith
    calc ((antoineExpQ t : ℚ) : ℝ) ≤ (((m : ℚ) / 2000 : ℚ) : ℝ) := by exact_mod_cast hq'
      _ = (m : ℝ) / 2000 := by push_cast; ring
  calc (10 : ℝ) ^ ((antoineExpQ t : ℚ) : ℝ) * 0.133322
      ≤ ((U : ℝ) / 100000) * 0.133322 :=
        mul_le_mul_of_nonneg_right (le_trans h2 h1) (by norm_num)
    _ = (((U : ℚ) / 100000 * 0.133322 : ℚ) : ℝ) := by
        push_cast
        ring

/-- The Antoine correlation is monotone in temperature (above 0 °C, well
inside the domain of the fitted constants). -/
theorem water_bp_kpa_mono {T1 T2 : ℝ} (h0 : 0 ≤ T1) (h : T1 ≤ T2) :
    water_bp_kpa T1 ≤ water_bp_kpa T2 := by
  unfold water_bp_kpa
  have hd1 : (0 : ℝ) < T1 + 233.426 := by norm_num; linarith
  have hd2 : (0 : ℝ) < T2 + 233.426 := by norm_num; linarith
  have hexp : 8.07131 - 1730.63 / (T1 + 233.426)
      ≤ 8.07131 - 1730.63 / (T2 + 233.426) := by
    have := div_le_div_of_nonneg_left (by norm_num : (0:ℝ) ≤ 1730.63) hd1
      (by linarith : T1 + 233.426 ≤ T2 + 233.426)
    linarith [this]
  have := Real.rpow_le_rpow_of_exponent_le (by norm_num : (1:ℝ) ≤ 10) hexp
  nlinarith

/-- `water_bp_temp` over `ℝ` agrees with the `ℚ` computation on
rational pressures. -/
theorem water_bp_temp_cast (x : ℚ) :
    water_bp_tempR (x : ℝ) = ((water_bp_temp x : ℚ) : ℝ) :=
  interpolate_cast x bp_tableQ

/-- Round-trip bound on one temperature interval `[a, b]`: given a
certified rational lower bound on the Antoine pressure at `a` and upper
bound at `b`, and table evaluations of `water_bp_temp` at those rational
pressures within 2 °C of the interval, every real `T ∈ [a, b]` satisfies
`|water_bp_tempR (water_bp_kpa T) - T| ≤ 2`. -/
theorem roundtrip_on (a b : ℚ) (La Ub ma mb : ℕ)
    (hpa : La ^ 2000 ≤ 10 ^ (ma + 10000))
    (hqa : (ma : ℚ) ≤ antoineExpQ a * 2000)
    (hpb : 10 ^ (mb + 10000) ≤ Ub ^ 2000)
    (hqb : antoineExpQ b * 2000 ≤ (mb : ℚ))
    (ha0 : 0 ≤ a)
    (h1 : b - 2 ≤ water_bp_temp ((La : ℚ) / 100000 * 0.133322))
    (h2 : water_bp_temp ((Ub : ℚ) / 100000 * 0.133322) ≤ a + 2) :
    ∀ T : ℝ, (a : ℝ) ≤ T → T ≤ (b : ℝ) →
      |water_bp_tempR (water_bp_kpa T) - T| ≤ 2 := by
  intro T hTa hTb
  have ha0R : (0 : ℝ) ≤ (a : ℝ) := by exact_mod_cast ha0
  have hT0 : (0 : ℝ) ≤ T := le_trans ha0R hTa
  have hlo : (((La : ℚ) / 100000 * 0.133322 : ℚ) : ℝ) ≤ water_bp_kpa T :=
    le_trans (water_bp_kpa_ge a La ma hpa hqa) (water_bp_kpa_mono ha0R hTa)
  have hhi : water_bp_kpa T ≤ (((Ub : ℚ) / 100000 * 0.133322 : ℚ) : ℝ) :=
    le_trans (water_bp_kpa_mono hT0 hTb) (water_bp_kpa_le b Ub mb hpb hqb)
  have hm1 : ((water_bp_temp ((La : ℚ) / 100000 * 0.133322) : ℚ) : ℝ)
      ≤ water_bp_tempR (water_bp_kpa T) :=
    calc ((water_bp_temp ((La : ℚ) / 100000 * 0.133322) : ℚ) : ℝ)
        = water_bp_tempR ((((La : ℚ) / 100000 * 0.133322 : ℚ)) : ℝ) :=
          (water_bp_temp_cast _).symm
      _ ≤ water_bp_tempR (water_bp_kpa T) :=
          interpolate_mono bp_tableR strictTable_bpR _ _ hlo
  have hm2 : water_bp_tempR (water_bp_kpa T)
      ≤ ((water_bp_temp ((Ub : ℚ) / 100000 * 0.133322) : ℚ) : ℝ) :=
    calc water_bp_tempR (water_bp_kpa T)
        ≤ water_bp_tempR ((((Ub : ℚ) / 100000 * 0.133322 : ℚ)) : ℝ) :=
          interpolate_mono bp_tableR strictTable_bpR _ _ hhi
      _ = ((water_bp_temp ((Ub : ℚ) / 100000 * 0.133322) : ℚ) : ℝ) :=
          water_bp_temp_cast _
  have hcast1 : ((b : ℝ) - 2)
      ≤ ((water_bp_temp ((La : ℚ) / 100000 * 0.133322) : ℚ) : ℝ) := by
    have : ((b - 2 : ℚ) : ℝ) ≤ _ := Rat.cast_le.mpr h1
    push_cast at this
    exact this
  have hcast2 : ((water_bp_temp ((Ub : ℚ) / 100000 * 0.133322) : ℚ) : ℝ)
      ≤ (a : ℝ) + 2 := by
    have : _ ≤ ((a + 2 : ℚ) : ℝ) := Rat.cast_le.mpr h2
    push_cast at this
    exact this
  rw [abs_le]
  constructor
  · linarith
  · linarith

/-! ### Round-trip bound segments (C7)

Each segment certifies `|water_bp_tempR (water_bp_kpa T) - T| ≤ 2` on a
short temperature interval, via rational Antoine bounds at the two
endpoints (2000-th power certificates) and exact table evaluations.
-/

unseal Rat.mul Rat.inv Rat.add Rat.sub Rat.ofScientific in
/-- Round-trip bound on [10, 11] °C. -/
theorem rt_seg_0 : ∀ T : ℝ, 10 ≤ T → T ≤ 11 →
    |water_bp_tempR (water_bp_kpa T) - T| ≤ 2 := by
  intro T hA hB
  exact roundtrip_on 10 11 915166 979490 1923 1982 (by norm_num) (by decide)
    (by norm_num) (by decide) (by decide) (by decide) (by decide) T
    (by push_cast; exact hA) (by push_cast; exact hB)

unseal Rat.mul Rat.inv Rat.add Rat.sub Rat.ofScientific in
/-- Round-trip bound on [11, 12] °C. -/
theorem rt_seg_1 : ∀ T : ℝ, 11 ≤ T → T ≤ 12 →
    |water_bp_tempR (water_bp_kpa T) - T| ≤ 2 := by
  intro T hA hB
  exact roundtrip_on 11 12 978362 1047129 1981 2040 (by norm_num) (by decide)
    (by norm_num) (by decide) (by decide) (by decide) (by decide) T
    (by push_cast; exact hA) (by push_cast; exact hB)

unseal Rat.mul Rat.inv Rat.add Rat.sub Rat.ofScientific in
/-- Round-trip bound on [12, 13] °C. -/
theorem rt_seg_2 : ∀ T : ℝ, 12 ≤ T → T ≤ 13 →
    |water_bp_tempR (water_bp_kpa T) - T| ≤ 2 := by
  intro T hA hB
  exact roundtrip_on 12 13 1045923 1118150 2039 2097 (by norm_num) (by decide)
    (by norm_num) (by decide) (by decide) (by decide) (by decide) T
    (by push_cast; exact hA) (by push_cast; exact hB)

unseal Rat.mul Rat.inv Rat.add Rat.sub Rat.ofScientific in
/-- Round-trip bound on [13, 14] °C. -/
theorem rt_seg_3 : ∀ T : ℝ, 13 ≤ T → T ≤ 14 →
    |water_bp_tempR (water_bp_kpa T) - T| ≤ 2 := by
  intro T hA hB
  exact roundtrip_on 13 14 1116863 1193989 2096 2154 (by norm_num) (by decide)
    (by norm_num) (by decide) (by decide) (by decide) (by decide) T
    (by push_cast; exact hA) (by push_cast; exact hB)

unseal Rat.mul Rat.inv Rat.add Rat.sub Rat.ofScientific in
/-- Round-trip bound on [14, 15] °C. -/
theorem rt_seg_4 : ∀ T : ℝ, 14 ≤ T → T ≤ 15 →
    |water_bp_tempR (water_bp_kpa T) - T| ≤ 2 := by
  intro T hA hB
  exact roundtrip_on 14 15 1192614 1273504 2153 2210 (by norm_num) (by decide)
    (by norm_num) (by decide) (by decide) (by decide) (by decide) T
    (by push_cast; exact hA) (by push_cast; exact hB)

unseal Rat.mul Rat.inv Rat.add Rat.sub Rat.ofScientific in
/-- Round-trip bound on [15, 16] °C. -/
theorem rt_seg_5 : ∀ T : ℝ, 15 ≤ T → T ≤ 16 →
    |water_bp_tempR (water_bp_kpa T) - T| ≤ 2 := by
  intro T hA hB
  exact roundtrip_on 15 16 1272037 1358314 2209 2266 (by norm_num) (by decide)
    (by norm_num) (by decide) (by decide) (by decide) (by decide) T
    (by push_cast; exact hA) (by push_cast; exact hB)

unseal Rat.mul Rat.inv Rat.add Rat.sub Rat.ofScientific in
/-- Round-trip bound on [16, 17] °C. -/
theorem rt_seg_6 : ∀ T : ℝ, 16 ≤ T → T ≤ 17 →
    |water_bp_tempR (water_bp_kpa T) - T| ≤ 2 := by
  intro T hA hB
  exact roundtrip_on 16 17 1356750 1448772 2265 2322 (by norm_num) (by decide)
    (by norm_num) (by decide) (by decide) (by decide) (by decide) T
    (by push_cast; exact hA) (by push_cast; exact hB)

unseal Rat.mul Rat.inv Rat.add Rat.sub Rat.ofScientific in
/-- Round-trip bound on [17, 18] °C. -/
theorem rt_seg_7 : ∀ T : ℝ, 17 ≤ T → T ≤ 18 →
    |water_bp_tempR (water_bp_kpa T) - T| ≤ 2 := by
  intro T hA hB
  exact roundtrip_on 17 18 1447104 1543477 2321 2377 (by norm_num) (by decide)
    (by norm_num) (by decide) (by decide) (by decide) (by decide) T
    (by push_cast; exact hA) (by push_cast; exact hB)

unseal Rat.mul Rat.inv Rat.add Rat.sub Rat.ofScientific in
/-- Round-trip bound on [18, 19] °C. -/
theorem rt_seg_8 : ∀ T : ℝ, 18 ≤ T → T ≤ 19 →
    |water_bp_tempR (water_bp_kpa T) - T| ≤ 2 := by
  intro T hA hB
  exact roundtrip_on 18 19 1541700 1642480 2376 2431 (by norm_num) (by decide)
    (by norm_num) (by decide) (by decide) (by decide) (by decide) T
    (by push_cast; exact hA) (by push_cast; exact hB)

unseal Rat.mul Rat.inv Rat.add Rat.sub Rat.ofScientific in
/-- Round-trip bound on [19, 20] °C. -/
theorem rt_seg_9 : ∀ T : ℝ, 19 ≤ T → T ≤ 20 →
    |water_bp_tempR (water_bp_kpa T) - T| ≤ 2 := by
  intro T hA hB
  exact roundtrip_on 19 20 1640589 1747834 2430 2485 (by norm_num) (by decide)
    (by norm_num) (by decide) (by decide) (by decide) (by decide) T
    (by push_cast; exact hA) (by push_cast; exact hB)

unseal Rat.mul Rat.inv Rat.add Rat.sub Rat.ofScientific in
/-- Round-trip bound on [20, 21] °C. -/
theorem rt_seg_10 : ∀ T : ℝ, 20 ≤ T → T ≤ 21 →
    |water_bp_tempR (water_bp_kpa T) - T| ≤ 2 := by
  intro T hA hB
  exact roundtrip_on 20 21 1745822 1859945 2484 2539 (by norm_num) (by decide)
    (by norm_num) (by decide) (by decide) (by decide) (by decide) T
    (by push_cast; exact hA) (by push_cast; exact hB)

unseal Rat.mul Rat.inv Rat.add Rat.sub Rat.ofScientific in
/-- Round-trip bound on [21, 22] °C. -/
theorem rt_seg_11 : ∀ T : ℝ, 21 ≤ T → T ≤ 22 →
    |water_bp_tempR (water_bp_kpa T) - T| ≤ 2 := by
  intro T hA hB
  exact roundtrip_on 21 22 1857804 1976970 2538 2592 (by norm_num) (by decide)
    (by norm_num) (by decide) (by decide) (by decide) (by decide) T
    (by push_cast; exact hA) (by push_cast; exact hB)

unseal Rat.mul Rat.inv Rat.add Rat.sub Rat.ofScientific in
/-- Round-trip bound on [22, 23] °C. -/
theorem rt_seg_12 : ∀ T : ℝ, 22 ≤ T → T ≤ 23 →
    |water_bp_tempR (water_bp_kpa T) - T| ≤ 2 := by
  intro T hA hB
  exact roundtrip_on 22 23 1974694 2101358 2591 2645 (by norm_num) (by decide)
    (by norm_num) (by decide) (by decide) (by decide) (by decide) T
    (by push_cast; exact hA) (by push_cast; exact hB)

unseal Rat.mul Rat.inv Rat.add Rat.sub Rat.ofScientific in
/-- Round-trip bound on [23, 24] °C. -/
theorem rt_seg_13 : ∀ T : ℝ, 23 ≤ T → T ≤ 24 →
    |water_bp_tempR (water_bp_kpa T) - T| ≤ 2 := by
  intro T hA hB
  exact roundtrip_on 23 24 2098939 2231003 2644 2697 (by norm_num) (by decide)
    (by norm_num) (by decide) (by decide) (by decide) (by decide) T
    (by push_cast; exact hA) (by push_cast; exact hB)

unseal Rat.mul Rat.inv Rat.add Rat.sub Rat.ofScientific in
/-- Round-trip bound on [24, 25] °C. -/
theorem rt_seg_14 : ∀ T : ℝ, 24 ≤ T → T ≤ 25 →
    |water_bp_tempR (water_bp_kpa T) - T| ≤ 2 := by
  intro T hA hB
  exact roundtrip_on 24 25 2228435 2368646 2696 2749 (by norm_num) (by decide)
    (by norm_num) (by decide) (by decide) (by decide) (by decide) T
    (by push_cast; exact hA) (by push_cast; exact hB)

unseal Rat.mul Rat.inv Rat.add Rat.sub Rat.ofScientific in
/-- Round-trip bound on [25, 26] °C. -/
theorem rt_seg_15 : ∀ T : ℝ, 25 ≤ T → T ≤ 26 →
    |water_bp_tempR (water_bp_kpa T) - T| ≤ 2 := by
  intro T hA hB
  exact roundtrip_on 25 26 2365919 2514781 2748 2801 (by norm_num) (by decide)
    (by norm_num) (by decide) (by decide) (by decide) (by decide) T
    (by push_cast; exact hA) (by push_cast; exact hB)

unseal Rat.mul Rat.inv Rat.add Rat.sub Rat.ofScientific in
/-- Round-trip bound on [26, 27] °C. -/
theorem rt_seg_16 : ∀ T : ℝ, 26 ≤ T → T ≤ 27 →
    |water_bp_tempR (water_bp_kpa T) - T| ≤ 2 := by
  intro T hA hB
  exact roundtrip_on 26 27 2511886 2666859 2800 2852 (by norm_num) (by decide)
    (by norm_num) (by decide) (by decide) (by decide) (by decide) T
    (by push_cast; exact hA) (by push_cast; exact hB)

unseal Rat.mul Rat.inv Rat.add Rat.sub Rat.ofScientific in
/-- Round-trip bound on [27, 28] °C. -/
theorem rt_seg_17 : ∀ T : ℝ, 27 ≤ T → T ≤ 28 →
    |water_bp_tempR (water_bp_kpa T) - T| ≤ 2 := by
  intro T hA hB
  exact roundtrip_on 27 28 2663790 2828135 2851 2903 (by norm_num) (by decide)
    (by norm_num) (by decide) (by decide) (by decide) (by decide) T
    (by push_cast; exact hA) (by push_cast; exact hB)

unseal Rat.mul Rat.inv Rat.add Rat.sub Rat.ofScientific in
/-- Round-trip bound on [28, 29] °C. -/
theorem rt_seg_18 : ∀ T : ℝ, 28 ≤ T → T ≤ 29 →
    |water_bp_tempR (water_bp_kpa T) - T| ≤ 2 := by
  intro T hA hB
  exact roundtrip_on 28 29 2824879 2999163 2902 2954 (by norm_num) (by decide)
    (by norm_num) (by decide) (by decide) (by decide) (by decide) T
    (by push_cast; exact hA) (by push_cast; exact hB)

unseal Rat.mul Rat.inv Rat.add Rat.sub Rat.ofScientific in
/-- Round-trip bound on [29, 30] °C. -/
theorem rt_seg_19 : ∀ T : ℝ, 29 ≤ T → T ≤ 30 →
    |water_bp_tempR (water_bp_kpa T) - T| ≤ 2 := by
  intro T hA hB
  exact roundtrip_on 29 30 2995711 3176875 2953 3004 (by norm_num) (by decide)
    (by norm_num) (by decide) (by decide) (by decide) (by decide) T
    (by push_cast; exact hA) (by push_cast; exact hB)

unseal Rat.mul Rat.inv Rat.add Rat.sub Rat.ofScientific in
/-- Round-trip bound on [30, 31] °C. -/
theorem rt_seg_20 : ∀ T : ℝ, 30 ≤ T → T ≤ 31 →
    |water_bp_tempR (water_bp_kpa T) - T| ≤ 2 := by
  intro T hA hB
  exact roundtrip_on 30 31 3173218 3361244 3003 3053 (by norm_num) (by decide)
    (by norm_num) (by decide) (by decide) (by decide) (by decide) T
    (by push_cast; exact hA) (by push_cast; exact hB)

unseal Rat.mul Rat.inv Rat.add Rat.sub Rat.ofScientific in
/-- Round-trip bound on [31, 32] °C. -/
theorem rt_seg_21 : ∀ T : ℝ, 31 ≤ T → T ≤ 32 →
    |water_bp_tempR (water_bp_kpa T) - T| ≤ 2 := by
  intro T hA hB
  exact roundtrip_on 31 32 3357376 3560410 3052 3103 (by norm_num) (by decide)
    (by norm_num) (by decide) (by decide) (by decide) (by decide) T
    (by push_cast; exact hA) (by push_cast; exact hB)

unseal Rat.mul Rat.inv Rat.add Rat.sub Rat.ofScientific in
/-- Round-trip bound on [32, 33] °C. -/
theorem rt_seg_22 : ∀ T : ℝ, 32 ≤ T → T ≤ 33 →
    |water_bp_tempR (water_bp_kpa T) - T| ≤ 2 := by
  intro T hA hB
  exact roundtrip_on 32 33 3556313 3767038 3102 3152 (by norm_num) (by decide)
    (by norm_num) (by decide) (by decide) (by decide) (by decide) T
    (by push_cast; exact hA) (by push_cast; exact hB)

unseal Rat.mul Rat.inv Rat.add Rat.sub Rat.ofScientific in
/-- Round-trip bound on [33, 34] °C. -/
theorem rt_seg_23 : ∀ T : ℝ, 33 ≤ T → T ≤ 34 →
    |water_bp_tempR (water_bp_kpa T) - T| ≤ 2 := by
  intro T hA hB
  exact roundtrip_on 33 34 3762703 3981072 3151 3200 (by norm_num) (by decide)
    (by norm_num) (by decide) (by decide) (by decide) (by decide) T
    (by push_cast; exact hA) (by push_cast; exact hB)

unseal Rat.mul Rat.inv Rat.add Rat.sub Rat.ofScientific in
/-- Round-trip bound on [34, 35] °C. -/
theorem rt_seg_24 : ∀ T : ℝ, 34 ≤ T → T ≤ 35 →
    |water_bp_tempR (water_bp_kpa T) - T| ≤ 2 := by
  intro T hA hB
  exact roundtrip_on 34 35 3976490 4207267 3199 3248 (by norm_num) (by decide)
    (by norm_num) (by decide) (by decide) (by decide) (by decide) T
    (by push_cast; exact hA) (by push_cast; exact hB)

unseal Rat.mul Rat.inv Rat.add Rat.sub Rat.ofScientific in
/-- Round-trip bound on [35, 36] °C. -/
theorem rt_seg_25 : ∀ T : ℝ, 35 ≤ T → T ≤ 36 →
    |water_bp_tempR (water_bp_kpa T) - T| ≤ 2 := by
  intro T hA hB
  exact roundtrip_on 35 36 4202425 4446313 3247 3296 (by norm_num) (by decide)
    (by norm_num) (by decide) (by decide) (by decide) (by decide) T
    (by push_cast; exact hA) (by push_cast; exact hB)

unseal Rat.mul Rat.inv Rat.add Rat.sub Rat.ofScientific in
/-- Round-trip bound on [36, 37] °C. -/
theorem rt_seg_26 : ∀ T : ℝ, 36 ≤ T → T ≤ 37 →
    |water_bp_tempR (water_bp_kpa T) - T| ≤ 2 := by
  intro T hA hB
  exact roundtrip_on 36 37 4441196 4698942 3295 3344 (by norm_num) (by decide)
    (by norm_num) (by decide) (by decide) (by decide) (by decide) T
    (by push_cast; exact hA) (by push_cast; exact hB)

unseal Rat.mul Rat.inv Rat.add Rat.sub Rat.ofScientific in
/-- Round-trip bound on [37, 38] °C. -/
theorem rt_seg_27 : ∀ T : ℝ, 37 ≤ T → T ≤ 38 →
    |water_bp_tempR (water_bp_kpa T) - T| ≤ 2 := by
  intro T hA hB
  exact roundtrip_on 37 38 4693534 4960210 3343 3391 (by norm_num) (by decide)
    (by norm_num) (by decide) (by decide) (by decide) (by decide) T
    (by push_cast; exact hA) (by push_cast; exact hB)

unseal Rat.mul Rat.inv Rat.add Rat.sub Rat.ofScientific in
/-- Round-trip bound on [38, 39] °C. -/
theorem rt_seg_28 : ∀ T : ℝ, 38 ≤ T → T ≤ 39 →
    |water_bp_tempR (water_bp_kpa T) - T| ≤ 2 := by
  intro T hA hB
  exact roundtrip_on 38 39 4954501 5236005 3390 3438 (by norm_num) (by decide)
    (by norm_num) (by decide) (by decide) (by decide) (by decide) T
    (by push_cast; exact hA) (by push_cast; exact hB)

unseal Rat.mul Rat.inv Rat.add Rat.sub Rat.ofScientific in
/-- Round-trip bound on [39, 40] °C. -/
theorem rt_seg_29 : ∀ T : ℝ, 39 ≤ T → T ≤ 40 →
    |water_bp_tempR (water_bp_kpa T) - T| ≤ 2 := by
  intro T hA hB
  exact roundtrip_on 39 40 5229979 5520775 3437 3484 (by norm_num) (by decide)
    (by norm_num) (by decide) (by decide) (by decide) (by decide) T
    (by push_cast; exact hA) (by push_cast; exact hB)

unseal Rat.mul Rat.inv Rat.add Rat.sub Rat.ofScientific in
/-- Round-trip bound on [40, 41] °C. -/
theorem rt_seg_30 : ∀ T : ℝ, 40 ≤ T → T ≤ 41 →
    |water_bp_tempR (water_bp_kpa T) - T| ≤ 2 := by
  intro T hA hB
  exact roundtrip_on 40 41 5514422 5821033 3483 3530 (by norm_num) (by decide)
    (by norm_num) (by decide) (by decide) (by decide) (by decide) T
    (by push_cast; exact hA) (by push_cast; exact hB)

unseal Rat.mul Rat.inv Rat.add Rat.sub Rat.ofScientific in
/-- Round-trip bound on [41, 42] °C. -/
theorem rt_seg_31 : ∀ T : ℝ, 41 ≤ T → T ≤ 42 →
    |water_bp_tempR (water_bp_kpa T) - T| ≤ 2 := by
  intro T hA hB
  exact roundtrip_on 41 42 5814334 6137621 3529 3576 (by norm_num) (by decide)
    (by norm_num) (by decide) (by decide) (by decide) (by decide) T
    (by push_cast; exact hA) (by push_cast; exact hB)

unseal Rat.mul Rat.inv Rat.add Rat.sub Rat.ofScientific in
/-- Round-trip bound on [42, 43] °C. -/
theorem rt_seg_32 : ∀ T : ℝ, 42 ≤ T → T ≤ 43 →
    |water_bp_tempR (water_bp_kpa T) - T| ≤ 2 := by
  intro T hA hB
  exact roundtrip_on 42 43 6130557 6471427 3575 3622 (by norm_num) (by decide)
    (by norm_num) (by decide) (by decide) (by decide) (by decide) T
    (by push_cast; exact hA) (by push_cast; exact hB)

unseal Rat.mul Rat.inv Rat.add Rat.sub Rat.ofScientific in
/-- Round-trip bound on [43, 44] °C. -/
theorem rt_seg_33 : ∀ T : ℝ, 43 ≤ T → T ≤ 44 →
    |water_bp_tempR (water_bp_kpa T) - T| ≤ 2 := by
  intro T hA hB
  exact roundtrip_on 43 44 6463979 6815536 3621 3667 (by norm_num) (by decide)
    (by norm_num) (by decide) (by decide) (by decide) (by decide) T
    (by push_cast; exact hA) (by push_cast; exact hB)

unseal Rat.mul Rat.inv Rat.add Rat.sub Rat.ofScientific in
/-- Round-trip bound on [44, 45] °C. -/
theorem rt_seg_34 : ∀ T : ℝ, 44 ≤ T → T ≤ 45 →
    |water_bp_tempR (water_bp_kpa T) - T| ≤ 2 := by
  intro T hA hB
  exact roundtrip_on 44 45 6807693 7177943 3666 3712 (by norm_num) (by decide)
    (by norm_num) (by decide) (by decide) (by decide) (by decide) T
    (by push_cast; exact hA) (by push_cast; exact hB)

unseal Rat.mul Rat.inv Rat.add Rat.sub Rat.ofScientific in
/-- Round-trip bound on [45, 46] °C. -/
theorem rt_seg_35 : ∀ T : ℝ, 45 ≤ T → T ≤ 46 →
    |water_bp_tempR (water_bp_kpa T) - T| ≤ 2 := by
  intro T hA hB
  exact roundtrip_on 45 46 7169683 7550923 3711 3756 (by norm_num) (by decide)
    (by norm_num) (by decide) (by decide) (by decide) (by decide) T
    (by push_cast; exact hA) (by push_cast; exact hB)

unseal Rat.mul Rat.inv Rat.add Rat.sub Rat.ofScientific in
/-- Round-trip bound on [46, 47] °C. -/
theorem rt_seg_36 : ∀ T : ℝ, 46 ≤ T → T ≤ 47 →
    |water_bp_tempR (water_bp_kpa T) - T| ≤ 2 := by
  intro T hA hB
  exact roundtrip_on 46 47 7542233 7943283 3755 3800 (by norm_num) (by decide)
    (by norm_num) (by decide) (by decide) (by decide) (by decide) T
    (by push_cast; exact hA) (by push_cast; exact hB)

unseal Rat.mul Rat.inv Rat.add Rat.sub Rat.ofScientific in
/-- Round-trip bound on [47, 48] °C. -/
theorem rt_seg_37 : ∀ T : ℝ, 47 ≤ T → T ≤ 48 →
    |water_bp_tempR (water_bp_kpa T) - T| ≤ 2 := by
  intro T hA hB
  exact roundtrip_on 47 48 7934142 8356031 3799 3844 (by norm_num) (by decide)
    (by norm_num) (by decide) (by decide) (by decide) (by decide) T
    (by push_cast; exact hA) (by push_cast; exact hB)

unseal Rat.mul Rat.inv Rat.add Rat.sub Rat.ofScientific in
/-- Round-trip bound on [48, 49] °C. -/
theorem rt_seg_38 : ∀ T : ℝ, 48 ≤ T → T ≤ 49 →
    |water_bp_tempR (water_bp_kpa T) - T| ≤ 2 := by
  intro T hA hB
  exact roundtrip_on 48 49 8346415 8790226 3843 3888 (by norm_num) (by decide)
    (by norm_num) (by decide) (by decide) (by decide) (by decide) T
    (by push_cast; exact hA) (by push_cast; exact hB)

unseal Rat.mul Rat.inv Rat.add Rat.sub Rat.ofScientific in
/-- Round-trip bound on [49, 50] °C. -/
theorem rt_seg_39 : ∀ T : ℝ, 49 ≤ T → T ≤ 50 →
    |water_bp_tempR (water_bp_kpa T) - T| ≤ 2 := by
  intro T hA hB
  exact roundtrip_on 49 50 8780110 9236342 3887 3931 (by norm_num) (by decide)
    (by norm_num) (by decide) (by decide) (by decide) (by decide) T
    (by push_cast; exact hA) (by push_cast; exact hB)

unseal Rat.mul Rat.inv Rat.add Rat.sub Rat.ofScientific in
/-- Round-trip bound on [50, 51] °C. -/
theorem rt_seg_40 : ∀ T : ℝ, 50 ≤ T → T ≤ 51 →
    |water_bp_tempR (water_bp_kpa T) - T| ≤ 2 := by
  intro T hA hB
  exact roundtrip_on 50 51 9225714 9705100 3930 3974 (by norm_num) (by decide)
    (by norm_num) (by decide) (by decide) (by decide) (by decide) T
    (by push_cast; exact hA) (by push_cast; exact hB)

unseal Rat.mul Rat.inv Rat.add Rat.sub Rat.ofScientific in
/-- Round-trip bound on [51, 52] °C. -/
theorem rt_seg_41 : ∀ T : ℝ, 51 ≤ T → T ≤ 52 →
    |water_bp_tempR (water_bp_kpa T) - T| ≤ 2 := by
  intro T hA hB
  exact roundtrip_on 51 52 9693932 10185914 3973 4016 (by norm_num) (by decide)
    (by norm_num) (by decide) (by decide) (by decide) (by decide) T
    (by push_cast; exact hA) (by push_cast; exact hB)

unseal Rat.mul Rat.inv Rat.add Rat.sub Rat.ofScientific in
/-- Round-trip bound on [52, 53] °C. -/
theorem rt_seg_42 : ∀ T : ℝ, 52 ≤ T → T ≤ 53 →
    |water_bp_tempR (water_bp_kpa T) - T| ≤ 2 := by
  intro T hA hB
  exact roundtrip_on 52 53 10174193 10702864 4015 4059 (by norm_num) (by decide)
    (by norm_num) (by decide) (by decide) (by decide) (by decide) T
    (by push_cast; exact hA) (by push_cast; exact hB)

unseal Rat.mul Rat.inv Rat.add Rat.sub Rat.ofScientific in
/-- Round-trip bound on [53, 54] °C. -/
theorem rt_seg_43 : ∀ T : ℝ, 53 ≤ T → T ≤ 54 →
    |water_bp_tempR (water_bp_kpa T) - T| ≤ 2 := by
  intro T hA hB
  exact roundtrip_on 53 54 10690548 11233110 4058 4101 (by norm_num) (by decide)
    (by norm_num) (by decide) (by decide) (by decide) (by decide) T
    (by push_cast; exact hA) (by push_cast; exact hB)

unseal Rat.mul Rat.inv Rat.add Rat.sub Rat.ofScientific in
/-- Round-trip bound on [54, 55] °C. -/
theorem rt_seg_44 : ∀ T : ℝ, 54 ≤ T → T ≤ 55 →
    |water_bp_tempR (water_bp_kpa T) - T| ≤ 2 := by
  intro T hA hB
  exact roundtrip_on 54 55 11220184 11789626 4100 4143 (by norm_num) (by decide)
    (by norm_num) (by decide) (by decide) (by decide) (by decide) T
    (by push_cast; exact hA) (by push_cast; exact hB)

unseal Rat.mul Rat.inv Rat.add Rat.sub Rat.ofScientific in
/-- Round-trip bound on [55, 56] °C. -/
theorem rt_seg_45 : ∀ T : ℝ, 55 ≤ T → T ≤ 56 →
    |water_bp_tempR (water_bp_kpa T) - T| ≤ 2 := by
  intro T hA hB
  exact roundtrip_on 55 56 11776059 12359475 4142 4184 (by norm_num) (by decide)
    (by norm_num) (by decide) (by decide) (by decide) (by decide) T
    (by push_cast; exact hA) (by push_cast; exact hB)

unseal Rat.mul Rat.inv Rat.add Rat.sub Rat.ofScientific in
/-- Round-trip bound on [56, 57] °C. -/
theorem rt_seg_46 : ∀ T : ℝ, 56 ≤ T → T ≤ 57 →
    |water_bp_tempR (water_bp_kpa T) - T| ≤ 2 := by
  intro T hA hB
  exact roundtrip_on 56 57 12345253 12956867 4183 4225 (by norm_num) (by decide)
    (by norm_num) (by decide) (by decide) (by decide) (by decide) T
    (by push_cast; exact hA) (by push_cast; exact hB)

unseal Rat.mul Rat.inv Rat.add Rat.sub Rat.ofScientific in
/-- Round-trip bound on [57, 58] °C. -/
theorem rt_seg_47 : ∀ T : ℝ, 57 ≤ T → T ≤ 58 →
    |water_bp_tempR (water_bp_kpa T) - T| ≤ 2 := by
  intro T hA hB
  exact roundtrip_on 57 58 12941958 13583135 4224 4266 (by norm_num) (by decide)
    (by norm_num) (by decide) (by decide) (by decide) (by decide) T
    (by push_cast; exact hA) (by push_cast; exact hB)

unseal Rat.mul Rat.inv Rat.add Rat.sub Rat.ofScientific in
/-- Round-trip bound on [58, 59] °C. -/
theorem rt_seg_48 : ∀ T : ℝ, 58 ≤ T → T ≤ 59 →
    |water_bp_tempR (water_bp_kpa T) - T| ≤ 2 := by
  intro T hA hB
  exact roundtrip_on 58 59 13567505 14239673 4265 4307 (by norm_num) (by decide)
    (by norm_num) (by decide) (by decide) (by decide) (by decide) T
    (by push_cast; exact hA) (by push_cast; exact hB)

unseal Rat.mul Rat.inv Rat.add Rat.sub Rat.ofScientific in
/-- Round-trip bound on [59, 60] °C. -/
theorem rt_seg_49 : ∀ T : ℝ, 59 ≤ T → T ≤ 60 →
    |water_bp_tempR (water_bp_kpa T) - T| ≤ 2 := by
  intro T hA hB
  exact roundtrip_on 59 60 14223287 14910768 4306 4347 (by norm_num) (by decide)
    (by norm_num) (by decide) (by decide) (by decide) (by decide) T
    (by push_cast; exact hA) (by push_cast; exact hB)

unseal Rat.mul Rat.inv Rat.add Rat.sub Rat.ofScientific in
/-- Round-trip bound on [60, 61] °C. -/
theorem rt_seg_50 : ∀ T : ℝ, 60 ≤ T → T ≤ 61 →
    |water_bp_tempR (water_bp_kpa T) - T| ≤ 2 := by
  intro T hA hB
  exact roundtrip_on 60 61 14893610 15613491 4346 4387 (by norm_num) (by decide)
    (by norm_num) (by decide) (by decide) (by decide) (by decide) T
    (by push_cast; exact hA) (by push_cast; exact hB)

unseal Rat.mul Rat.inv Rat.add Rat.sub Rat.ofScientific in
/-- Round-trip bound on [61, 62] °C. -/
theorem rt_seg_51 : ∀ T : ℝ, 61 ≤ T → T ≤ 62 →
    |water_bp_tempR (water_bp_kpa T) - T| ≤ 2 := by
  intro T hA hB
  exact roundtrip_on 61 62 15595525 16349332 4386 4427 (by norm_num) (by decide)
    (by norm_num) (by decide) (by decide) (by decide) (by decide) T
    (by push_cast; exact hA) (by push_cast; exact hB)

unseal Rat.mul Rat.inv Rat.add Rat.sub Rat.ofScientific in
/-- Round-trip bound on [62, 63] °C. -/
theorem rt_seg_52 : ∀ T : ℝ, 62 ≤ T → T ≤ 63 →
    |water_bp_tempR (water_bp_kpa T) - T| ≤ 2 := by
  intro T hA hB
  exact roundtrip_on 62 63 16330519 17100154 4426 4466 (by norm_num) (by decide)
    (by norm_num) (by decide) (by decide) (by decide) (by decide) T
    (by push_cast; exact hA) (by push_cast; exact hB)

unseal Rat.mul Rat.inv Rat.add Rat.sub Rat.ofScientific in
/-- Round-trip bound on [63, 64] °C. -/
theorem rt_seg_53 : ∀ T : ℝ, 63 ≤ T → T ≤ 64 →
    |water_bp_tempR (water_bp_kpa T) - T| ≤ 2 := by
  intro T hA hB
  exact roundtrip_on 63 64 17080477 17906059 4465 4506 (by norm_num) (by decide)
    (by norm_num) (by decide) (by decide) (by decide) (by decide) T
    (by push_cast; exact hA) (by push_cast; exact hB)

unseal Rat.mul Rat.inv Rat.add Rat.sub Rat.ofScientific in
/-- Round-trip bound on [64, 65] °C. -/
theorem rt_seg_54 : ∀ T : ℝ, 64 ≤ T → T ≤ 65 →
    |water_bp_tempR (water_bp_kpa T) - T| ≤ 2 := by
  intro T hA hB
  exact roundtrip_on 64 65 17885455 18728371 4505 4545 (by norm_num) (by decide)
    (by norm_num) (by decide) (by decide) (by decide) (by decide) T
    (by push_cast; exact hA) (by push_cast; exact hB)

unseal Rat.mul Rat.inv Rat.add Rat.sub Rat.ofScientific in
/-- Round-trip bound on [65, 66] °C. -/
theorem rt_seg_55 : ∀ T : ℝ, 65 ≤ T → T ≤ 66 →
    |water_bp_tempR (water_bp_kpa T) - T| ≤ 2 := by
  intro T hA hB
  exact roundtrip_on 65 66 18706821 19565908 4544 4583 (by norm_num) (by decide)
    (by norm_num) (by decide) (by decide) (by decide) (by decide) T
    (by push_cast; exact hA) (by push_cast; exact hB)

unseal Rat.mul Rat.inv Rat.add Rat.sub Rat.ofScientific in
/-- Round-trip bound on [66, 67] °C. -/
theorem rt_seg_56 : ∀ T : ℝ, 66 ≤ T → T ≤ 67 →
    |water_bp_tempR (water_bp_kpa T) - T| ≤ 2 := by
  intro T hA hB
  exact roundtrip_on 66 67 19543394 20464447 4582 4622 (by norm_num) (by decide)
    (by norm_num) (by decide) (by decide) (by decide) (by decide) T
    (by push_cast; exact hA) (by push_cast; exact hB)

unseal Rat.mul Rat.inv Rat.add Rat.sub Rat.ofScientific in
/-- Round-trip bound on [67, 68] °C. -/
theorem rt_seg_57 : ∀ T : ℝ, 67 ≤ T → T ≤ 68 →
    |water_bp_tempR (water_bp_kpa T) - T| ≤ 2 := by
  intro T hA hB
  exact roundtrip_on 67 68 20440899 21379621 4621 4660 (by norm_num) (by decide)
    (by norm_num) (by decide) (by decide) (by decide) (by decide) T
    (by push_cast; exact hA) (by push_cast; exact hB)

unseal Rat.mul Rat.inv Rat.add Rat.sub Rat.ofScientific in
/-- Round-trip bound on [68, 69] °C. -/
theorem rt_seg_58 : ∀ T : ℝ, 68 ≤ T → T ≤ 69 →
    |water_bp_tempR (water_bp_kpa T) - T| ≤ 2 := by
  intro T hA hB
  exact roundtrip_on 68 69 21355020 22335723 4659 4698 (by norm_num) (by decide)
    (by norm_num) (by decide) (by decide) (by decide) (by decide) T
    (by push_cast; exact hA) (by push_cast; exact hB)

unseal Rat.mul Rat.inv Rat.add Rat.sub Rat.ofScientific in
/-- Round-trip bound on [69, 70] °C. -/
theorem rt_seg_59 : ∀ T : ℝ, 69 ≤ T → T ≤ 70 →
    |water_bp_tempR (water_bp_kpa T) - T| ≤ 2 := by
  intro T hA hB
  exact roundtrip_on 69 70 22310022 23334581 4697 4736 (by norm_num) (by decide)
    (by norm_num) (by decide) (by decide) (by decide) (by decide) T
    (by push_cast; exact hA) (by push_cast; exact hB)

unseal Rat.mul Rat.inv Rat.add Rat.sub Rat.ofScientific in
/-- Round-trip bound on [70, 71] °C. -/
theorem rt_seg_60 : ∀ T : ℝ, 70 ≤ T → T ≤ 71 →
    |water_bp_tempR (water_bp_kpa T) - T| ≤ 2 := by
  intro T hA hB
  exact roundtrip_on 70 71 23307731 24350058 4735 4773 (by norm_num) (by decide)
    (by norm_num) (by decide) (by decide) (by decide) (by decide) T
    (by push_cast; exact hA) (by push_cast; exact hB)

unseal Rat.mul Rat.inv Rat.add Rat.sub Rat.ofScientific in
/-- Round-trip bound on [71, 72] °C. -/
theorem rt_seg_61 : ∀ T : ℝ, 71 ≤ T → T ≤ 72 →
    |water_bp_tempR (water_bp_kpa T) - T| ≤ 2 := by
  intro T hA hB
  exact roundtrip_on 71 72 24322040 25438998 4772 4811 (by norm_num) (by decide)
    (by norm_num) (by decide) (by decide) (by decide) (by decide) T
    (by push_cast; exact hA) (by push_cast; exact hB)

unseal Rat.mul Rat.inv Rat.add Rat.sub Rat.ofScientific in
/-- Round-trip bound on [72, 73] °C. -/
theorem rt_seg_62 : ∀ T : ℝ, 72 ≤ T → T ≤ 73 →
    |water_bp_tempR (water_bp_kpa T) - T| ≤ 2 := by
  intro T hA hB
  exact roundtrip_on 72 73 25409727 26546056 4810 4848 (by norm_num) (by decide)
    (by norm_num) (by decide) (by decide) (by decide) (by decide) T
    (by push_cast; exact hA) (by push_cast; exact hB)

unseal Rat.mul Rat.inv Rat.add Rat.sub Rat.ofScientific in
/-- Round-trip bound on [73, 74] °C. -/
theorem rt_seg_63 : ∀ T : ℝ, 73 ≤ T → T ≤ 74 →
    |water_bp_tempR (water_bp_kpa T) - T| ≤ 2 := by
  intro T hA hB
  exact roundtrip_on 73 74 26515510 27669417 4847 4884 (by norm_num) (by decide)
    (by norm_num) (by decide) (by decide) (by decide) (by decide) T
    (by push_cast; exact hA) (by push_cast; exact hB)

unseal Rat.mul Rat.inv Rat.add Rat.sub Rat.ofScientific in
/-- Round-trip bound on [74, 75] °C. -/
theorem rt_seg_64 : ∀ T : ℝ, 74 ≤ T → T ≤ 75 →
    |water_bp_tempR (water_bp_kpa T) - T| ≤ 2 := by
  intro T hA hB
  exact roundtrip_on 74 75 27637579 28873538 4883 4921 (by norm_num) (by decide)
    (by norm_num) (by decide) (by decide) (by decide) (by decide) T
    (by push_cast; exact hA) (by push_cast; exact hB)

unseal Rat.mul Rat.inv Rat.add Rat.sub Rat.ofScientific in
/-- Round-trip bound on [75, 76] °C. -/
theorem rt_seg_65 : ∀ T : ℝ, 75 ≤ T → T ≤ 76 →
    |water_bp_tempR (water_bp_kpa T) - T| ≤ 2 := by
  intro T hA hB
  exact roundtrip_on 75 76 28840315 30095392 4920 4957 (by norm_num) (by decide)
    (by norm_num) (by decide) (by decide) (by decide) (by decide) T
    (by push_cast; exact hA) (by push_cast; exact hB)

unseal Rat.mul Rat.inv Rat.add Rat.sub Rat.ofScientific in
/-- Round-trip bound on [76, 77] °C. -/
theorem rt_seg_66 : ∀ T : ℝ, 76 ≤ T → T ≤ 77 →
    |water_bp_tempR (water_bp_kpa T) - T| ≤ 2 := by
  intro T hA hB
  exact roundtrip_on 76 77 30060763 31368952 4956 4993 (by norm_num) (by decide)
    (by norm_num) (by decide) (by decide) (by decide) (by decide) T
    (by push_cast; exact hA) (by push_cast; exact hB)

unseal Rat.mul Rat.inv Rat.add Rat.sub Rat.ofScientific in
/-- Round-trip bound on [77, 78] °C. -/
theorem rt_seg_67 : ∀ T : ℝ, 77 ≤ T → T ≤ 78 →
    |water_bp_tempR (water_bp_kpa T) - T| ≤ 2 := by
  intro T hA hB
  exact roundtrip_on 77 78 31332857 32696405 4992 5029 (by norm_num) (by decide)
    (by norm_num) (by decide) (by decide) (by decide) (by decide) T
    (by push_cast; exact hA) (by push_cast; exact hB)

unseal Rat.mul Rat.inv Rat.add Rat.sub Rat.ofScientific in
/-- Round-trip bound on [78, 79] °C. -/
theorem rt_seg_68 : ∀ T : ℝ, 78 ≤ T → T ≤ 79 →
    |water_bp_tempR (water_bp_kpa T) - T| ≤ 2 := by
  intro T hA hB
  exact roundtrip_on 78 79 32658783 34040819 5028 5064 (by norm_num) (by decide)
    (by norm_num) (by decide) (by decide) (by decide) (by decide) T
    (by push_cast; exact hA) (by push_cast; exact hB)

unseal Rat.mul Rat.inv Rat.add Rat.sub Rat.ofScientific in
/-- Round-trip bound on [79, 80] °C. -/
theorem rt_seg_69 : ∀ T : ℝ, 79 ≤ T → T ≤ 80 →
    |water_bp_tempR (water_bp_kpa T) - T| ≤ 2 := by
  intro T hA hB
  exact roundtrip_on 79 80 34001650 35481339 5063 5100 (by norm_num) (by decide)
    (by norm_num) (by decide) (by decide) (by decide) (by decide) T
    (by push_cast; exact hA) (by push_cast; exact hB)

unseal Rat.mul Rat.inv Rat.add Rat.sub Rat.ofScientific in
/-- Round-trip bound on [80, 81] °C. -/
theorem rt_seg_70 : ∀ T : ℝ, 80 ≤ T → T ≤ 81 →
    |water_bp_tempR (water_bp_kpa T) - T| ≤ 2 := by
  intro T hA hB
  exact roundtrip_on 80 81 35440513 36940265 5099 5135 (by norm_num) (by decide)
    (by norm_num) (by decide) (by decide) (by decide) (by decide) T
    (by push_cast; exact hA) (by push_cast; exact hB)

unseal Rat.mul Rat.inv Rat.add Rat.sub Rat.ofScientific in
/-- Round-trip bound on [81, 82] °C. -/
theorem rt_seg_71 : ∀ T : ℝ, 81 ≤ T → T ≤ 82 →
    |water_bp_tempR (water_bp_kpa T) - T| ≤ 2 := by
  intro T hA hB
  exact roundtrip_on 81 82 36897759 38459179 5134 5170 (by norm_num) (by decide)
    (by norm_num) (by decide) (by decide) (by decide) (by decide) T
    (by push_cast; exact hA) (by push_cast; exact hB)

unseal Rat.mul Rat.inv Rat.add Rat.sub Rat.ofScientific in
/-- Round-trip bound on [82, 83] °C. -/
theorem rt_seg_72 : ∀ T : ℝ, 82 ≤ T → T ≤ 83 →
    |water_bp_tempR (water_bp_kpa T) - T| ≤ 2 := by
  intro T hA hB
  exact roundtrip_on 82 83 38414925 40040547 5169 5205 (by norm_num) (by decide)
    (by norm_num) (by decide) (by decide) (by decide) (by decide) T
    (by push_cast; exact hA) (by push_cast; exact hB)

unseal Rat.mul Rat.inv Rat.add Rat.sub Rat.ofScientific in
/-- Round-trip bound on [83, 84] °C. -/
theorem rt_seg_73 : ∀ T : ℝ, 83 ≤ T → T ≤ 84 →
    |water_bp_tempR (water_bp_kpa T) - T| ≤ 2 := by
  intro T hA hB
  exact roundtrip_on 83 84 39994474 41638973 5204 5239 (by norm_num) (by decide)
    (by norm_num) (by decide) (by decide) (by decide) (by decide) T
    (by push_cast; exact hA) (by push_cast; exact hB)

unseal Rat.mul Rat.inv Rat.add Rat.sub Rat.ofScientific in
/-- Round-trip bound on [84, 85] °C. -/
theorem rt_seg_74 : ∀ T : ℝ, 84 ≤ T → T ≤ 85 →
    |water_bp_tempR (water_bp_kpa T) - T| ≤ 2 := by
  intro T hA hB
  exact roundtrip_on 84 85 41591061 43301207 5238 5273 (by norm_num) (by decide)
    (by norm_num) (by decide) (by decide) (by decide) (by decide) T
    (by push_cast; exact hA) (by push_cast; exact hB)

unseal Rat.mul Rat.inv Rat.add Rat.sub Rat.ofScientific in
/-- Round-trip bound on [85, 86] °C. -/
theorem rt_seg_75 : ∀ T : ℝ, 85 ≤ T → T ≤ 86 →
    |water_bp_tempR (water_bp_kpa T) - T| ≤ 2 := by
  intro T hA hB
  exact roundtrip_on 85 86 43251383 45029799 5272 5307 (by norm_num) (by decide)
    (by norm_num) (by decide) (by decide) (by decide) (by decide) T
    (by push_cast; exact hA) (by push_cast; exact hB)

unseal Rat.mul Rat.inv Rat.add Rat.sub Rat.ofScientific in
/-- Round-trip bound on [86, 87] °C. -/
theorem rt_seg_76 : ∀ T : ℝ, 86 ≤ T → T ≤ 87 →
    |water_bp_tempR (water_bp_kpa T) - T| ≤ 2 := by
  intro T hA hB
  exact roundtrip_on 86 87 44977985 46827396 5306 5341 (by norm_num) (by decide)
    (by norm_num) (by decide) (by decide) (by decide) (by decide) T
    (by push_cast; exact hA) (by push_cast; exact hB)

unseal Rat.mul Rat.inv Rat.add Rat.sub Rat.ofScientific in
/-- Round-trip bound on [87, 88] °C. -/
theorem rt_seg_77 : ∀ T : ℝ, 87 ≤ T → T ≤ 88 →
    |water_bp_tempR (water_bp_kpa T) - T| ≤ 2 := by
  intro T hA hB
  exact roundtrip_on 87 88 46773514 48696753 5340 5375 (by norm_num) (by decide)
    (by norm_num) (by decide) (by decide) (by decide) (by decide) T
    (by push_cast; exact hA) (by push_cast; exact hB)

unseal Rat.mul Rat.inv Rat.add Rat.sub Rat.ofScientific in
/-- Round-trip bound on [88, 177/2] °C. -/
theorem rt_seg_78 : ∀ T : ℝ, 88 ≤ T → T ≤ (177/2 : ℝ) →
    |water_bp_tempR (water_bp_kpa T) - T| ≤ 2 := by
  intro T hA hB
  exact roundtrip_on 88 (177/2 : ℚ) 48640720 49602093 5374 5391 (by norm_num) (by decide)
    (by norm_num) (by decide) (by decide) (by decide) (by decide) T
    (by push_cast; exact hA) (by push_cast; exact hB)

unseal Rat.mul Rat.inv Rat.add Rat.sub Rat.ofScientific in
/-- Round-trip bound on [177/2, 89] °C. -/
theorem rt_seg_79 : ∀ T : ℝ, (177/2 : ℝ) ≤ T → T ≤ 89 →
    |water_bp_tempR (water_bp_kpa T) - T| ≤ 2 := by
  intro T hA hB
  exact roundtrip_on (177/2 : ℚ) 89 49545019 50582467 5390 5408 (by norm_num) (by decide)
    (by norm_num) (by decide) (by decide) (by decide) (by decide) T
    (by push_cast; exact hA) (by push_cast; exact hB)

unseal Rat.mul Rat.inv Rat.add Rat.sub Rat.ofScientific in
/-- Round-trip bound on [89, 179/2] °C. -/
theorem rt_seg_80 : ∀ T : ℝ, 89 ≤ T → T ≤ (179/2 : ℝ) →
    |water_bp_tempR (water_bp_kpa T) - T| ≤ 2 := by
  intro T hA hB
  exact roundtrip_on 89 (179/2 : ℚ) 50524264 51582217 5407 5425 (by norm_num) (by decide)
    (by norm_num) (by decide) (by decide) (by decide) (by decide) T
    (by push_cast; exact hA) (by push_cast; exact hB)

unseal Rat.mul Rat.inv Rat.add Rat.sub Rat.ofScientific in
/-- Round-trip bound on [179/2, 90] °C. -/
theorem rt_seg_81 : ∀ T : ℝ, (179/2 : ℝ) ≤ T → T ≤ 90 →
    |water_bp_tempR (water_bp_kpa T) - T| ≤ 2 := by
  intro T hA hB
  exact roundtrip_on (179/2 : ℚ) 90 51522864 52541202 5424 5441 (by norm_num) (by decide)
    (by norm_num) (by decide) (by decide) (by decide) (by decide) T
    (by push_cast; exact hA) (by push_cast; exact hB)

/-- C7 amended: the round trip `temperatureFromPressure ∘
pressureFromTemperature` stays within 2 °C of the identity on
[10, 90] °C. -/
theorem c7_amended : ∀ T : ℝ, (10 : ℝ) ≤ T → T ≤ 90 →
    |water_bp_tempR (water_bp_kpa T) - T| ≤ 2 := by
  intro T h1 h2
  rcases le_total T 11 with h | h
  · exact rt_seg_0 T h1 h
  clear h1
  have h1 := h
  clear h
  rcases le_total T 12 with h | h
  · exact rt_seg_1 T h1 h
  clear h1
  have h1 := h
  clear h
  rcases le_total T 13 with h | h
  · exact rt_seg_2 T h1 h
  clear h1
  have h1 := h
  clear h
  rcases le_total T 14 with h | h
  · exact rt_seg_3 T h1 h
  clear h1
  have h1 := h
  clear h
  rcases le_total T 15 with h | h
  · exact rt_seg_4 T h1 h
  clear h1
  have h1 := h
  clear h
  rcases le_total T 16 with h | h
  · exact rt_seg_5 T h1 h
  clear h1
  have h1 := h
  clear h
  rcases le_total T 17 with h | h
  · exact rt_seg_6 T h1 h
  clear h1
  have h1 := h
  clear h
  rcases le_total T 18 with h | h
  · exact rt_seg_7 T h1 h
  clear h1
  have h1 := h
  clear h
  rcases le_total T 19 with h | h
  · exact rt_seg_8 T h1 h
  clear h1
  have h1 := h
  clear h
  rcases le_total T 20 with h | h
  · exact rt_seg_9 T h1 h
  clear h1
  have h1 := h
  clear h
  rcases le_total T 21 with h | h
  · exact rt_seg_10 T h1 h
  clear h1
  have h1 := h
  clear h
  rcases le_total T 22 with h | h
  · exact rt_seg_11 T h1 h
  clear h1
  have h1 := h
  clear h
  rcases le_total T 23 with h | h
  · exact rt_seg_12 T h1 h
  clear h1
  have h1 := h
  clear h
  rcases le_total T 24 with h | h
  · exact rt_seg_13 T h1 h
  clear h1
  have h1 := h
  clear h
  rcases le_total T 25 with h | h
  · exact rt_seg_14 T h1 h
  clear h1
  have h1 := h
  clear h
  rcases le_total T 26 with h | h
  · exact rt_seg_15 T h1 h
  clear h1
  have h1 := h
  clear h
  rcases le_total T 27 with h | h
  · exact rt_seg_16 T h1 h
  clear h1
  have h1 := h
  clear h
  rcases le_total T 28 with h | h
  · exact rt_seg_17 T h1 h
  clear h1
  have h1 := h
  clear h
  rcases le_total T 29 with h | h
  · exact rt_seg_18 T h1 h
  clear h1
  have h1 := h
  clear h
  rcases le_total T 30 with h | h
  · exact rt_seg_19 T h1 h
  clear h1
  have h1 := h
  clear h
  rcases le_total T 31 with h | h
  · exact rt_seg_20 T h1 h
  clear h1
  have h1 := h
  clear h
  rcases le_total T 32 with h | h
  · exact rt_seg_21 T h1 h
  clear h1
  have h1 := h
  clear h
  rcases le_total T 33 with h | h
  · exact rt_seg_22 T h1 h
  clear h1
  have h1 := h
  clear h
  rcases le_total T 34 with h | h
  · exact rt_seg_23 T h1 h
  clear h1
  have h1 := h
  clear h
  rcases le_total T 35 with h | h
  · exact rt_seg_24 T h1 h
  clear h1
  have h1 := h
  clear h
  rcases le_total T 36 with h | h
  · exact rt_seg_25 T h1 h
  clear h1
  have h1 := h
  clear h
  rcases le_total T 37 with h | h
  · exact rt_seg_26 T h1 h
  clear h1
  have h1 := h
  clear h
  rcases le_total T 38 with h | h
  · exact rt_seg_27 T h1 h
  clear h1
  have h1 := h
  clear h
  rcases le_total T 39 with h | h
  · exact rt_seg_28 T h1 h
  clear h1
  have h1 := h
  clear h
  rcases le_total T 40 with h | h
  · exact rt_seg_29 T h1 h
  clear h1
  have h1 := h
  clear h
  rcases le_total T 41 with h | h
  · exact rt_seg_30 T h1 h
  clear h1
  have h1 := h
  clear h
  rcases le_total T 42 with h | h
  · exact rt_seg_31 T h1 h
  clear h1
  have h1 := h
  clear h
  rcases le_total T 43 with h | h
  · exact rt_seg_32 T h1 h
  clear h1
  have h1 := h
  clear h
  rcases le_total T 44 with h | h
  · exact rt_seg_33 T h1 h
  clear h1
  have h1 := h
  clear h
  rcases le_total T 45 with h | h
  · exact rt_seg_34 T h1 h
  clear h1
  have h1 := h
  clear h
  rcases le_total T 46 with h | h
  · exact rt_seg_35 T h1 h
  clear h1
  have h1 := h
  clear h
  rcases le_total T 47 with h | h
  · exact rt_seg_36 T h1 h
  clear h1
  have h1 := h
  clear h
  rcases le_total T 48 with h | h
  · exact rt_seg_37 T h1 h
  clear h1
  have h1 := h
  clear h
  rcases le_total T 49 with h | h
  · exact rt_seg_38 T h1 h
  clear h1
  have h1 := h
  clear h
  rcases le_total T 50 with h | h
  · exact rt_seg_39 T h1 h
  clear h1
  have h1 := h
  clear h
  rcases le_total T 51 with h | h
  · exact rt_seg_40 T h1 h
  clear h1
  have h1 := h
  clear h
  rcases le_total T 52 with h | h
  · exact rt_seg_41 T h1 h
  clear h1
  have h1 := h
  clear h
  rcases le_total T 53 with h | h
  · exact rt_seg_42 T h1 h
  clear h1
  have h1 := h
  clear h
  rcases le_total T 54 with h | h
  · exact rt_seg_43 T h1 h
  clear h1
  have h1 := h
  clear h
  rcases le_total T 55 with h | h
  · exact rt_seg_44 T h1 h
  clear h1
  have h1 := h
  clear h
  rcases le_total T 56 with h | h
  · exact rt_seg_45 T h1 h
  clear h1
  have h1 := h
  clear h
  rcases le_total T 57 with h | h
  · exact rt_seg_46 T h1 h
  clear h1
  have h1 := h
  clear h
  rcases le_total T 58 with h | h
  · exact rt_seg_47 T h1 h
  clear h1
  have h1 := h
  clear h
  rcases le_total T 59 with h | h
  · exact rt_seg_48 T h1 h
  clear h1
  have h1 := h
  clear h
  rcases le_total T 60 with h | h
  · exact rt_seg_49 T h1 h
  clear h1
  have h1 := h
  clear h
  rcases le_total T 61 with h | h
  · exact rt_seg_50 T h1 h
  clear h1
  have h1 := h
  clear h
  rcases le_total T 62 with h | h
  · exact rt_seg_51 T h1 h
  clear h1
  have h1 := h
  clear h
  rcases le_total T 63 with h | h
  · exact rt_seg_52 T h1 h
  clear h1
  have h1 := h
  clear h
  rcases le_total T 64 with h | h
  · exact rt_seg_53 T h1 h
  clear h1
  have h1 := h
  clear h
  rcases le_total T 65 with h | h
  · exact rt_seg_54 T h1 h
  clear h1
  have h1 := h
  clear h
  rcases le_total T 66 with h | h
  · exact rt_seg_55 T h1 h
  clear h1
  have h1 := h
  clear h
  rcases le_total T 67 with h | h
  · exact rt_seg_56 T h1 h
  clear h1
  have h1 := h
  clear h
  rcases le_total T 68 with h | h
  · exact rt_seg_57 T h1 h
  clear h1
  have h1 := h
  clear h
  rcases le_total T 69 with h | h
  · exact rt_seg_58 T h1 h
  clear h1
  have h1 := h
  clear h
  rcases le_total T 70 with h | h
  · exact rt_seg_59 T h1 h
  clear h1
  have h1 := h
  clear h
  rcases le_total T 71 with h | h
  · exact rt_seg_60 T h1 h
  clear h1
  have h1 := h
  clear h
  rcases le_total T 72 with h | h
  · exact rt_seg_61 T h1 h
  clear h1
  have h1 := h
  clear h
  rcases le_total T 73 with h | h
  · exact rt_seg_62 T h1 h
  clear h1
  have h1 := h
  clear h
  rcases le_total T 74 with h | h
  · exact rt_seg_63 T h1 h
  clear h1
  have h1 := h
  clear h
  rcases le_total T 75 with h | h
  · exact rt_seg_64 T h1 h
  clear h1
  have h1 := h
  clear h
  rcases le_total T 76 with h | h
  · exact rt_seg_65 T h1 h
  clear h1
  have h1 := h
  clear h
  rcases le_total T 77 with h | h
  · exact rt_seg_66 T h1 h
  clear h1
  have h1 := h
  clear h
  rcases le_total T 78 with h | h
  · exact rt_seg_67 T h1 h
  clear h1
  have h1 := h
  clear h
  rcases le_total T 79 with h | h
  · exact rt_seg_68 T h1 h
  clear h1
  have h1 := h
  clear h
  rcases le_total T 80 with h | h
  · exact rt_seg_69 T h1 h
  clear h1
  have h1 := h
  clear h
  rcases le_total T 81 with h | h
  · exact rt_seg_70 T h1 h
  clear h1
  have h1 := h
  clear h
  rcases le_total T 82 with h | h
  · exact rt_seg_71 T h1 h
  clear h1
  have h1 := h
  clear h
  rcases le_total T 83 with h | h
  · exact rt_seg_72 T h1 h
  clear h1
  have h1 := h
  clear h
  rcases le_total T 84 with h | h
  · exact rt_seg_73 T h1 h
  clear h1
  have h1 := h
  clear h
  rcases le_total T 85 with h | h
  · exact rt_seg_74 T h1 h
  clear h1
  have h1 := h
  clear h
  rcases le_total T 86 with h | h
  · exact rt_seg_75 T h1 h
  clear h1
  have h1 := h
  clear h
  rcases le_total T 87 with h | h
  · exact rt_seg_76 T h1 h
  clear h1
  have h1 := h
  clear h
  rcases le_total T 88 with h | h
  · exact rt_seg_77 T h1 h
  clear h1
  have h1 := h
  clear h
  rcases le_total T (177/2 : ℝ) with h | h
  · exact rt_seg_78 T h1 h
  clear h1
  have h1 := h
  clear h
  rcases le_total T 89 with h | h
  · exact rt_seg_79 T h1 h
  clear h1
  have h1 := h
  clear h
  rcases le_total T (179/2 : ℝ) with h | h
  · exact rt_seg_80 T h1 h
  clear h1
  have h1 := h
  clear h
  exact rt_seg_81 T h1 h2


unseal Rat.mul Rat.inv Rat.add Rat.sub Rat.ofScientific in
/-- C7 counterexample: at `T = 89` °C (inside [10, 90]) the round trip
overshoots the identity by MORE than 1 °C: the Antoine pressure at 89 °C
is at least 67.359 kPa, which the coarse table maps above 90.1 °C, so
the absolute round-trip error exceeds 1.1 °C — the claimed 1 °C
tolerance is too tight. -/
theorem c7_counterexample :
    (10 : ℝ) ≤ 89 ∧ (89 : ℝ) ≤ 90 ∧
    1 < |water_bp_tempR (water_bp_kpa 89) - 89| := by
  refine ⟨by norm_num, by norm_num, ?_⟩
  have hlo : (((50524264 : ℚ) / 100000 * 0.133322 : ℚ) : ℝ)
      ≤ water_bp_kpa ((89 : ℚ) : ℝ) :=
    water_bp_kpa_ge 89 50524264 5407 (by norm_num) (by decide)
  have hcast89 : ((89 : ℚ) : ℝ) = (89 : ℝ) := by push_cast; ring
  rw [hcast89] at hlo
  have hm : ((water_bp_temp ((50524264 : ℚ) / 100000 * 0.133322) : ℚ) : ℝ)
      ≤ water_bp_tempR (water_bp_kpa 89) :=
    calc ((water_bp_temp ((50524264 : ℚ) / 100000 * 0.133322) : ℚ) : ℝ)
        = water_bp_tempR ((((50524264 : ℚ) / 100000 * 0.133322 : ℚ)) : ℝ) :=
          (water_bp_temp_cast _).symm
      _ ≤ water_bp_tempR (water_bp_kpa 89) :=
          interpolate_mono bp_tableR strictTable_bpR _ _ hlo
  have hval : (901 / 10 : ℚ) ≤ water_bp_temp ((50524264 : ℚ) / 100000 * 0.133322) := by
    decide
  have hvalR : ((901 / 10 : ℚ) : ℝ) ≤ water_bp_tempR (water_bp_kpa 89) :=
    le_trans (Rat.cast_le.mpr hval) hm
  have h901 : ((901 / 10 : ℚ) : ℝ) = (901 : ℝ) / 10 := by push_cast; ring
  rw [h901] at hvalR
  calc (1 : ℝ) < 901 / 10 - 89 := by norm_num
    _ ≤ water_bp_tempR (water_bp_kpa 89) - 89 := by linarith
    _ ≤ |water_bp_tempR (water_bp_kpa 89) - 89| := le_abs_self _

/-- Witness for `c7_amended` at `T = 50` °C. -/
theorem c7_witness :
    (10 : ℝ) ≤ 50 ∧ (50 : ℝ) ≤ 90 ∧
    |water_bp_tempR (water_bp_kpa 50) - 50| ≤ 2 :=
  ⟨by norm_num, by norm_num, c7_amended 50 (by norm_num) (by norm_num)⟩
